import Mathlib

/-!
Verification of the adaptive clustering and auto-tuning engine of the
file-triage repository (src/index.ts, clustering module).

Shallow embedding conventions:

 - JavaScript numbers are modelled by an arbitrary linear ordered field `K`
   together with a square-root function `sqrt : K → K`; the intended
   instantiation is `K = ℝ`, `sqrt = Real.sqrt`.  Structural theorems are
   proved for every `K` and every `sqrt`, hence in particular for the real
   semantics.  Concrete executions are run at `K = ℚ` with a rational
   square root that provably agrees with `Real.sqrt` on every argument
   those executions produce (the perfect squares 0, 1 and 4), so the traced
   runs coincide with the floating-point-free real-number semantics.
 - `NaN` is modelled by `Option K`: `none` is `NaN`.  The only division
   that can produce `NaN` inside the engine is the one in
   `cosineSimilarity` (where the denominator vanishes only together with
   the numerator) and the average of an empty similarity list; both are
   mapped to `none`, and all comparisons against an optional value follow
   the JavaScript rule that any comparison with `NaN` is false.
 - The HDBSCAN library is an external collaborator; it is modelled as an
   oracle function `hdbscanLabels : List (List K) → ℕ → ℕ → List ℤ`
   (embedding matrix, minClusterSize, minSamples ↦ labels) over which the
   theorems quantify universally.
 - `JavaScript`'s stable `Array.prototype.sort` with a numeric comparator
   is modelled by `List.insertionSort` with the reflexive total relation
   induced by the comparator: stable sorts by the same total preorder
   yield the same list.  When a compared key is `NaN` the JavaScript
   comparator result is implementation defined; the model keeps the
   original relative order in that case.
 - Human-readable log strings (`suggestions`, `adjustments` texts) are not
   consumed by any modelled code path; `adjustments` entries are modelled
   by the pair (old options, new options), which preserves the only
   observable property used by the engine (the number of entries).
-/

section DataModel

variable (K : Type) [LinearOrderedField K]

/-- Mirror of the TypeScript `FileItem` interface: `filePath`, `embedding`,
`size` (byte count) and `lastModified` (epoch milliseconds). -/
structure FileItem where
  filePath : String
  embedding : List K
  size : ℕ
  lastModified : ℤ
deriving DecidableEq

/-- Mirror of the TypeScript `Cluster` interface; `centroid` is optional. -/
structure Cluster where
  id : ℤ
  files : List (FileItem K)
  centroid : Option (List K)
deriving DecidableEq

/-- Mirror of the TypeScript `ClusteringOptions` interface; every field is
optional. -/
structure ClusteringOptions where
  minClusterSize : Option ℕ
  minSamples : Option ℕ
  similarityThreshold : Option K
  maxClusterSize : Option ℕ
deriving DecidableEq

/-- Mirror of the TypeScript `AutoClusteringOptions` interface. -/
structure AutoClusteringOptions where
  maxIterations : Option ℕ
  targetClusterCount : Option ℕ
  maxClusterSizePercent : Option K
  minClusterSizePercent : Option K
  enableVerbose : Option Bool
deriving DecidableEq

/-- Size histogram over the fixed buckets 1–5, 6–10, 11–25, 26–50, 51–100,
100+ used by `analyzeClusteringResults`. -/
structure SizeDistribution where
  oneToFive : ℕ
  sixToTen : ℕ
  elevenToTwentyFive : ℕ
  twentySixToFifty : ℕ
  fiftyOneToHundred : ℕ
  overHundred : ℕ
deriving DecidableEq

/-- Mirror of the record returned by `analyzeClusteringResults`.  The
`suggestions` strings are not consumed by any modelled code path and are
omitted. -/
structure ClusteringAnalysis where
  totalClusters : ℕ
  totalFiles : ℕ
  clusterSizes : List ℕ
  sizeDistribution : SizeDistribution
deriving DecidableEq

/-- Accumulated state returned by the `autoClusterFiles` iteration loop. -/
structure LoopOutcome where
  bestClusters : List (Cluster K)
  bestScore : K
  finalOptions : ClusteringOptions K
  adjustments : List (ClusteringOptions K × ClusteringOptions K)

/-- Mirror of the TypeScript `AutoClusteringResult` interface. -/
structure AutoClusteringResult where
  clusters : List (Cluster K)
  iterations : ℕ
  finalOptions : ClusteringOptions K
  adjustments : List (ClusteringOptions K × ClusteringOptions K)
  analysis : ClusteringAnalysis

end DataModel

section JsPrimitives

variable {K : Type} [LinearOrderedField K]

/-- JavaScript division, restricted to the uses occurring in this engine:
division by zero yields `none` (`NaN`).  In `cosineSimilarity`, the only
place this function is used, the denominator `√normA · √normB` vanishes
only when `normA = 0`, which forces every entry of `a` and hence the
numerator to be `0`, so the JavaScript result there is indeed `0/0 = NaN`. -/
def jsDiv (x y : K) : Option K := if y = 0 then none else some (x / y)

/-- JavaScript addition with `NaN` propagation. -/
def jsAdd : Option K → Option K → Option K
  | some a, some b => some (a + b)
  | _, _ => none

/-- JavaScript `reduce((sum, x) => sum + x, 0)` over possibly-`NaN`
summands. -/
def jsSum (l : List (Option K)) : Option K := l.foldl jsAdd (some 0)

/-- Average of a list of similarities as computed by the source
(`reduce(...) / length`); an empty list gives `0 / 0 = NaN`, and a `NaN`
summand poisons the result. -/
def jsAvg (l : List (Option K)) (n : ℕ) : Option K :=
  if n = 0 then none else (jsSum l).map (fun s => s / (n : K))

/-- JavaScript `x || d` for an optional numeric field: `undefined` and `0`
are falsy. -/
def jsOrNat (o : Option ℕ) (d : ℕ) : ℕ :=
  match o with
  | some n => if n = 0 then d else n
  | none => d

/-- JavaScript `x || d` for an optional field of numeric type `K`. -/
def jsOrK (o : Option K) (d : K) : K :=
  match o with
  | some x => if x = 0 then d else x
  | none => d

/-- JavaScript truthiness of an optional numeric value (`undefined` and `0`
are falsy). -/
def jsTruthy (o : Option K) : Bool :=
  match o with
  | some x => decide (x ≠ 0)
  | none => false

/-- JavaScript truthiness for an optional integer field. -/
def jsTruthyNat (o : Option ℕ) : Bool :=
  match o with
  | some n => decide (n ≠ 0)
  | none => false

/-- JavaScript `Math.max` over a spread integer array.  On the empty list
JavaScript returns `-Infinity`; the engine evaluates that case only where
the result is unused or neutralised (documented at each use site), and the
model returns `0` there. -/
def jsMaxInt (l : List ℤ) : ℤ :=
  match l with
  | [] => 0
  | h :: t => t.foldl max h

/-- JavaScript `Math.max` over a spread array of natural numbers. -/
def jsMaxNat (l : List ℕ) : ℕ :=
  match l with
  | [] => 0
  | h :: t => t.foldl max h

end JsPrimitives

section VectorMath

variable {K : Type} [LinearOrderedField K]

/-- Sum of pairwise products `Σ aᵢ·bᵢ` over the common indices, as computed
by the accumulation loop of `cosineSimilarity` (which runs in the branch
where both lists have equal length). -/
def dotList (a b : List K) : K := ((a.zip b).map (fun p => p.1 * p.2)).sum

/-- Sum of squares `Σ xᵢ·xᵢ` (the `normA` / `normB` accumulators of
`cosineSimilarity`). -/
def sqSum (a : List K) : K := (a.map (fun x => x * x)).sum

/-- Mirror of `cosineSimilarity(a, b)` from src/index.ts: returns `0` when
the lengths differ, returns `0` when `normB === 0`, and otherwise divides
the dot product by `√normA · √normB`.  The source checks only `normB`, so
for a zero `a` against a non-zero `b` the division is `0 / 0 = NaN`,
modelled by `none`. -/
def cosineSimilarity (sqrt : K → K) (a b : List K) : Option K :=
  if a.length ≠ b.length then some 0
  else
    let dotProduct := dotList a b
    let normA := sqSum a
    let normB := sqSum b
    if normB = 0 then some 0
    else jsDiv dotProduct (sqrt normA * sqrt normB)

/-- Mirror of `calculateCosineDistance(a, b) = 1 - cosineSimilarity(a, b)`
(`NaN` propagates). -/
def calculateCosineDistance (sqrt : K → K) (a b : List K) : Option K :=
  (cosineSimilarity sqrt a b).map (fun s => 1 - s)

/-- Mirror of `calculateCosineSimilarity`, an alias of `cosineSimilarity`. -/
def calculateCosineSimilarity (sqrt : K → K) (a b : List K) : Option K :=
  cosineSimilarity sqrt a b

/-- Mirror of `calculateCentroid(embeddings)`: the element-wise mean over
the dimension count of the first embedding; empty input gives the empty
vector.  A ragged entry shorter than the first contributes `0` where
JavaScript would read `undefined` and poison the coordinate with `NaN`;
no theorem below depends on centroid values of ragged inputs. -/
def calculateCentroid (embeddings : List (List K)) : List K :=
  if embeddings.length = 0 then []
  else
    let dimensions := (embeddings.headD []).length
    (List.range dimensions).map
      (fun i => (embeddings.foldl (fun s e => s + e.getD i 0) 0) / (embeddings.length : K))

/-- Mirror of `findLeastSimilarFile(newFile, existingFiles)`: index of the
existing file with the smallest similarity strictly below the running
minimum (which starts at `1`), or `-1` when no comparison succeeds; a `NaN`
similarity never updates the minimum. -/
def findLeastSimilarFile (sqrt : K → K) (newFile : FileItem K)
    (existingFiles : List (FileItem K)) : ℤ :=
  (existingFiles.enum.foldl
    (fun acc p =>
      match calculateCosineSimilarity sqrt newFile.embedding p.2.embedding with
      | some s => if s < acc.2 then ((p.1 : ℤ), s) else acc
      | none => acc)
    ((-1 : ℤ), (1 : K))).1

end VectorMath

section SortRelations

variable {K : Type} [LinearOrderedField K]

/-- Comparator relation for the `distances.sort((a, b) => a.distance -
b.distance)` call of `splitLargeCluster`: ascending by distance; a `NaN`
distance keeps the original relative order (implementation-defined in
JavaScript). -/
def distLeB (x y : ℕ × FileItem K × Option K) : Bool :=
  match x.2.2, y.2.2 with
  | some a, some b => decide (a ≤ b)
  | _, _ => true

/-- Propositional form of `distLeB`, as required by `List.insertionSort`. -/
def distLe (x y : ℕ × FileItem K × Option K) : Prop := distLeB x y = true

instance : DecidableRel (distLe (K := K)) := fun x y => by
  unfold distLe; infer_instance

/-- Comparator relation for the final cluster sort of `clusterFiles`
(`(a, b) => b.files.length - a.files.length`, ties by ascending id):
descending by member count, then ascending by id. -/
def clusterOrderLe (x y : Cluster K) : Prop :=
  if x.files.length = y.files.length then x.id ≤ y.id
  else y.files.length < x.files.length

instance : DecidableRel (clusterOrderLe (K := K)) := fun x y => by
  unfold clusterOrderLe; infer_instance

/-- Comparator relation for `clusterSizes.sort((a, b) => b - a)`:
descending. -/
def sizeDescLe (x y : ℕ) : Prop := y ≤ x

instance : DecidableRel sizeDescLe := fun x y => by
  unfold sizeDescLe; infer_instance

end SortRelations

section Grouping

variable {K : Type} [LinearOrderedField K]

/-- One step of the label-grouping loop of `clusterFiles`: the JavaScript
`Map` keeps keys in insertion order and `push` appends, so a present key
has the file appended to its member list and an absent key is appended at
the end with a one-element list. -/
def groupInsert (acc : List (ℤ × List (FileItem K))) (lab : ℤ) (f : FileItem K) :
    List (ℤ × List (FileItem K)) :=
  if acc.any (fun p => decide (p.1 = lab)) then
    acc.map (fun p => if p.1 = lab then (p.1, p.2 ++ [f]) else p)
  else acc ++ [(lab, [f])]

/-- Mirror of the `labels.forEach` grouping loop of `clusterFiles`.  The
source maps `label === -1` to the key `-1` (an identity), so the label is
used as the key directly. -/
def groupByLabels (pairs : List (ℤ × FileItem K)) : List (ℤ × List (FileItem K)) :=
  pairs.foldl (fun acc p => groupInsert acc p.1 p.2) []

end Grouping

section SplitLargeCluster

variable {K : Type} [LinearOrderedField K]

/-- Average cosine similarity of `file` against the members of a
sub-cluster, as computed by the `reduce(...) / length` expression of
`splitLargeCluster` (an empty sub-cluster gives `0 / 0 = NaN`). -/
def avgSimilarityTo (sqrt : K → K) (file : FileItem K) (sub : List (FileItem K)) :
    Option K :=
  jsAvg (sub.map (fun subFile =>
    calculateCosineSimilarity sqrt file.embedding subFile.embedding)) sub.length

/-- Mirror of the first selection loop of the assignment phase of
`splitLargeCluster`: over sub-cluster indices `j < numSubClusters`, skip
full sub-clusters, and keep the index with the highest average similarity
(strict improvement over the running best, which starts at `-1`; a `NaN`
average never wins).  Returns the pair (best index, best similarity); the
index stays `0` when no comparison succeeds. -/
def bestOpenSubCluster (sqrt : K → K) (maxClusterSize numSubClusters : ℕ)
    (st : List (List (FileItem K))) (file : FileItem K) : ℕ × K :=
  (List.range numSubClusters).foldl
    (fun acc j =>
      if maxClusterSize ≤ (st.getD j []).length then acc
      else
        match avgSimilarityTo sqrt file (st.getD j []) with
        | some s => if acc.2 < s then (j, s) else acc
        | none => acc)
    (0, -1)

/-- Mirror of the second selection loop (the `bestFit` search of the swap
branch): identical to `bestOpenSubCluster` but without the fullness
skip. -/
def bestFitSubCluster (sqrt : K → K) (numSubClusters : ℕ)
    (st : List (List (FileItem K))) (file : FileItem K) : ℕ :=
  ((List.range numSubClusters).foldl
    (fun acc j =>
      match avgSimilarityTo sqrt file (st.getD j []) with
      | some s => if acc.2 < s then (j, s) else acc
      | none => acc)
    (0, -1)).1

/-- Mirror of one iteration of the remaining-member assignment loop of
`splitLargeCluster`: push the file into the selected sub-cluster if it is
not full, otherwise overwrite the least-similar member of the best-fit
sub-cluster with the file (the displaced member is not reinserted); when
`findLeastSimilarFile` returns `-1` nothing happens and the file itself is
dropped. -/
def assignFile (sqrt : K → K) (maxClusterSize numSubClusters : ℕ)
    (st : List (List (FileItem K))) (file : FileItem K) :
    List (List (FileItem K)) :=
  let bestSubCluster := (bestOpenSubCluster sqrt maxClusterSize numSubClusters st file).1
  if (st.getD bestSubCluster []).length < maxClusterSize then
    st.set bestSubCluster ((st.getD bestSubCluster []) ++ [file])
  else
    let bestFit := bestFitSubCluster sqrt numSubClusters st file
    let leastSimilarIndex := findLeastSimilarFile sqrt file (st.getD bestFit [])
    if leastSimilarIndex = -1 then st
    else st.set bestFit ((st.getD bestFit []).set leastSimilarIndex.toNat file)

/-- Mirror of `splitLargeCluster(cluster, maxClusterSize, startClusterId)`.
The seed-selection sort carries (original index, file, distance) triples so
that `files[distances[i].index]` is the second component of the `i`-th
sorted triple; `Math.ceil(files.length / maxClusterSize)` is
`(files.length + maxClusterSize - 1) / maxClusterSize` in natural-number
arithmetic (the source only calls this with `maxClusterSize ≥ 1`, and with
`files.length > maxClusterSize`). -/
def splitLargeCluster (sqrt : K → K) (cluster : Cluster K) (maxClusterSize : ℕ)
    (startClusterId : ℤ) : List (Cluster K) :=
  let files := cluster.files
  if files.length ≤ maxClusterSize then [{ cluster with id := startClusterId }]
  else
    let numSubClusters := (files.length + maxClusterSize - 1) / maxClusterSize
    if numSubClusters = 1 then [{ cluster with id := startClusterId }]
    else
      let centroid := cluster.centroid.getD
        (calculateCentroid (files.map (fun f => f.embedding)))
      let distances := files.enum.map
        (fun p => (p.1, p.2, calculateCosineDistance sqrt p.2.embedding centroid))
      let sorted := List.insertionSort distLe distances
      let seeds := sorted.take numSubClusters
      let usedFiles := seeds.map (fun t => t.1)
      let initState := seeds.map (fun t => [t.2.1])
      let pool := files.enum.filter
        (fun (p : ℕ × FileItem K) => decide (p.1 ∉ usedFiles))
      let finalState := pool.foldl
        (fun st p => assignFile sqrt maxClusterSize numSubClusters st p.2) initState
      (finalState.filter (fun l => decide (l ≠ []))).enum.map
        (fun p =>
          { id := startClusterId + (p.1 : ℤ), files := p.2,
            centroid := some (calculateCentroid (p.2.map (fun f => f.embedding))) })

end SplitLargeCluster

section ClusterFiles

variable {K : Type} [LinearOrderedField K]

/-- Mirror of `clusterFiles(files, options)` from src/index.ts.  The
HDBSCAN library call is the oracle parameter `hdbscanLabels` (embedding
matrix, minClusterSize, minSamples ↦ one label per vector; `-1` is noise).
If the oracle violates its contract and returns fewer labels than files,
the grouping loop (which iterates over the labels) covers only the files
with a label, exactly as the source's `labels.forEach` does. -/
def clusterFiles (sqrt : K → K)
    (hdbscanLabels : List (List K) → ℕ → ℕ → List ℤ)
    (files : List (FileItem K)) (options : ClusteringOptions K) :
    List (Cluster K) :=
  let minClusterSize := options.minClusterSize.getD 2
  let minSamples := options.minSamples.getD (min minClusterSize 3)
  let maxClusterSize := options.maxClusterSize.getD 50
  if files.length < minClusterSize then [{ id := 0, files := files, centroid := none }]
  else
    let embeddings := files.map (fun f => f.embedding)
    let labels := hdbscanLabels embeddings minClusterSize minSamples
    let grouped := groupByLabels (labels.zip files)
    let clusters := grouped.map
      (fun p =>
        ({ id := p.1, files := p.2,
           centroid := some (calculateCentroid (p.2.map (fun f => f.embedding))) } :
          Cluster K))
    let nextClusterId := jsMaxInt (clusters.map (fun c => c.id)) + 1
    let finalClusters := (clusters.foldl
      (fun (acc : List (Cluster K) × ℤ) c =>
        if c.files.length ≤ maxClusterSize then (acc.1 ++ [c], acc.2)
        else
          let subClusters := splitLargeCluster sqrt c maxClusterSize acc.2
          (acc.1 ++ subClusters, acc.2 + (subClusters.length : ℤ)))
      ([], nextClusterId)).1
    List.insertionSort clusterOrderLe finalClusters

/-- Concatenated member lists of a partition (the union the spec speaks
about, with multiplicity). -/
def clusterMembers (clusters : List (Cluster K)) : List (FileItem K) :=
  clusters.flatMap (fun c => c.files)

end ClusterFiles

section Analyzer

variable {K : Type} [LinearOrderedField K]

/-- Bucket-counting loop of `analyzeClusteringResults` over the sorted
cluster sizes. -/
def bucketize (sizes : List ℕ) : SizeDistribution :=
  sizes.foldl
    (fun d size =>
      if size ≤ 5 then { d with oneToFive := d.oneToFive + 1 }
      else if size ≤ 10 then { d with sixToTen := d.sixToTen + 1 }
      else if size ≤ 25 then { d with elevenToTwentyFive := d.elevenToTwentyFive + 1 }
      else if size ≤ 50 then { d with twentySixToFifty := d.twentySixToFifty + 1 }
      else if size ≤ 100 then { d with fiftyOneToHundred := d.fiftyOneToHundred + 1 }
      else { d with overHundred := d.overHundred + 1 })
    ⟨0, 0, 0, 0, 0, 0⟩

/-- Mirror of `analyzeClusteringResults(clusters)`: total counts, cluster
sizes sorted descending, and the bucketed size distribution (the
human-readable `suggestions` strings are omitted, see the module header). -/
def analyzeClusteringResults (clusters : List (Cluster K)) : ClusteringAnalysis :=
  let totalClusters := clusters.length
  let totalFiles := clusters.foldl (fun s c => s + c.files.length) 0
  let clusterSizes := List.insertionSort sizeDescLe (clusters.map (fun c => c.files.length))
  { totalClusters := totalClusters, totalFiles := totalFiles,
    clusterSizes := clusterSizes, sizeDistribution := bucketize clusterSizes }

end Analyzer

section Scorer

variable {K : Type} [LinearOrderedField K]

/-- The fixed ideal bucket-share profile of `calculateClusteringScore`. -/
def idealSizes : List K := [1/10, 2/10, 3/10, 2/10, 15/100, 5/100]

/-- The actual bucket-share vector `sizeDistribution[b] / totalClusters`
of `calculateClusteringScore`. -/
def actualSizes (analysis : ClusteringAnalysis) : List K :=
  [ (analysis.sizeDistribution.oneToFive : K) / (analysis.totalClusters : K),
    (analysis.sizeDistribution.sixToTen : K) / (analysis.totalClusters : K),
    (analysis.sizeDistribution.elevenToTwentyFive : K) / (analysis.totalClusters : K),
    (analysis.sizeDistribution.twentySixToFifty : K) / (analysis.totalClusters : K),
    (analysis.sizeDistribution.fiftyOneToHundred : K) / (analysis.totalClusters : K),
    (analysis.sizeDistribution.overHundred : K) / (analysis.totalClusters : K) ]

/-- Mirror of `calculateClusteringScore(analysis, totalFiles,
targetClusterCount)`.  The `if (targetClusterCount)` guard is JavaScript
truthiness, so a target of `0` disables the count term.  The distribution
loop indexes `actualSizes[i]` for `i` below `idealSizes.length`, which the
zip reproduces since both lists have six entries. -/
def calculateClusteringScore (analysis : ClusteringAnalysis) (totalFiles : ℕ)
    (targetClusterCount : Option ℕ) : K :=
  let score1 : K :=
    match targetClusterCount with
    | some target =>
        if target = 0 then 0
        else
          let countDiff := |(analysis.totalClusters : K) - (target : K)|
          let countScore := max 0 (1 - countDiff / (target : K))
          countScore * (3/10)
    | none => 0
  let distributionScore :=
    (((idealSizes (K := K)).zip (actualSizes (K := K) analysis)).foldl
      (fun s p => s + max 0 (1 - |p.2 - p.1|)) 0) / ((idealSizes (K := K)).length : K)
  let score2 := score1 + distributionScore * (4/10)
  let maxClusterPercent := (jsMaxNat analysis.clusterSizes : K) / (totalFiles : K)
  let sizePenalty := max 0 (maxClusterPercent - 5/100) * 6
  let score3 := score2 + max 0 (1 - sizePenalty) * (3/10)
  min 1 score3

end Scorer

section Tuner

variable {K : Type} [LinearOrderedField K] [FloorRing K]

/-- Mirror of `adjustClusteringParameters(currentOptions, analysis,
totalFiles, maxClusterSizePercent, minClusterSizePercent,
targetClusterCount)`: the six-rule table applied sequentially to a copy of
the current options (each rule sees the updates of the earlier ones).
`minClusterSizePercent` is accepted and never read, exactly as in the
source.  `Math.floor` is `Int.floor` followed by `toNat` (its arguments
are products of a non-negative statistic and a positive literal, and each
result is clamped from below by `Math.max`, so the value is never
negative). -/
def adjustClusteringParameters (currentOptions : ClusteringOptions K)
    (analysis : ClusteringAnalysis) (totalFiles : ℕ)
    (maxClusterSizePercent minClusterSizePercent : K)
    (targetClusterCount : Option ℕ) : ClusteringOptions K :=
  let maxClusterSize := jsMaxNat analysis.clusterSizes
  let maxClusterPercent : K := (maxClusterSize : K) / (totalFiles : K)
  -- Rule 1: shrink maxClusterSize, tighten threshold, when the largest
  -- cluster exceeds maxClusterSizePercent of the dataset.
  let o1 : ClusteringOptions K :=
    if maxClusterSizePercent < maxClusterPercent then
      let reductionFactor : K := if (15:K)/100 < maxClusterPercent then 3/10 else 5/10
      let oA := { currentOptions with
        maxClusterSize := some (max 5 (⌊(maxClusterSize : K) * reductionFactor⌋.toNat)) }
      if jsTruthy oA.similarityThreshold then
        let thresholdReduction : K :=
          if (15:K)/100 < maxClusterPercent then 2/10 else 1/10
        { oA with similarityThreshold := (some
            (max ((7:K)/10) (oA.similarityThreshold.getD 0 - thresholdReduction))) }
      else oA
    else currentOptions
  -- Rule 2: raise minClusterSize when many small clusters.
  let smallClusterCount :=
    analysis.sizeDistribution.oneToFive + analysis.sizeDistribution.sixToTen
  let smallClusterPercent : K := (smallClusterCount : K) / (analysis.totalClusters : K)
  let o2 : ClusteringOptions K :=
    if (7:K)/10 < smallClusterPercent ∧ 30 < smallClusterCount then
      { o1 with minClusterSize := some (min 10 (jsOrNat o1.minClusterSize 2 + 1)) }
    else o1
  -- Rule 3: nudge similarityThreshold toward the target cluster count.
  let o3 : ClusteringOptions K :=
    match targetClusterCount with
    | some target =>
        if target = 0 then o2
        else
          let currentRatio : K := (analysis.totalClusters : K) / (totalFiles : K)
          let targetRatio : K := (target : K) / (totalFiles : K)
          if targetRatio * (15/10) < currentRatio then
            { o2 with similarityThreshold := (some
                 (min ((98:K)/100) (jsOrK o2.similarityThreshold (95/100) + 2/100))) }
          else if currentRatio < targetRatio * (5/10) then
            { o2 with similarityThreshold := (some
                 (max ((8:K)/10) (jsOrK o2.similarityThreshold (95/100) - 3/100))) }
          else o2
    | none => o2
  -- Rule 4: shrink maxClusterSize when clusters are large on average.
  let largeClusterCount :=
    analysis.sizeDistribution.fiftyOneToHundred + analysis.sizeDistribution.overHundred
  let o4 : ClusteringOptions K :=
    if 0 < largeClusterCount ∧ jsTruthyNat o3.maxClusterSize = true then
      let avgClusterSize : K := (totalFiles : K) / (analysis.totalClusters : K)
      if (o3.maxClusterSize.getD 0 : K) * ((8:K)/10) < avgClusterSize then
        { o3 with maxClusterSize := (some
             (max 10 (⌊(o3.maxClusterSize.getD 0 : K) * (8/10)⌋.toNat))) }
      else o3
    else o3
  -- Rule 5: more aggressive when clusters above 100 files exist.
  let o5 : ClusteringOptions K :=
    if 0 < analysis.sizeDistribution.overHundred then
      let oB := { o4 with similarityThreshold := (some
         (max ((8:K)/10) (jsOrK o4.similarityThreshold (95/100) - 5/100))) }
      { oB with maxClusterSize := (some
           (max 10 (⌊(jsOrNat oB.maxClusterSize 50 : K) * (6/10)⌋.toNat))) }
    else o4
  -- Rule 6: emergency correction when the largest cluster exceeds 10%.
  if (1:K)/10 < maxClusterPercent then
    let oC := { o5 with maxClusterSize := (some
       (max 5 (⌊(maxClusterSize : K) * (25/100)⌋.toNat))) }
    if jsTruthy oC.similarityThreshold then
      { oC with similarityThreshold := (some
           (max ((7:K)/10) (oC.similarityThreshold.getD 0 - 25/100))) }
    else oC
  else o5

end Tuner

section AutoCluster

variable {K : Type} [LinearOrderedField K] [FloorRing K]

/-- Mirror of the best-result bookkeeping
`if (score > bestScore) { bestScore = score; bestClusters = clusters; }`
of `autoClusterFiles`. -/
def updateBest (bestClusters : List (Cluster K)) (bestScore : K)
    (clusters : List (Cluster K)) (score : K) : List (Cluster K) × K :=
  if bestScore < score then (clusters, score) else (bestClusters, bestScore)

/-- Mirror of the `for (iteration = 1; iteration <= maxIterations;
iteration++)` loop of `autoClusterFiles`.  `fuel` is the number of loop
iterations the `for` condition still allows, i.e.
`maxIterations + 1 - iteration`; the parameter-equality convergence test
`JSON.stringify(newOptions) !== JSON.stringify(currentOptions)` is
structural equality of the options record (the record is created by
spreading the current options, so key order agrees and the rules only
assign defined values).  `adjustments` entries carry the (old, new)
options pair in place of the human-readable change string. -/
def autoLoop (sqrt : K → K)
    (hdbscanLabels : List (List K) → ℕ → ℕ → List ℤ)
    (files : List (FileItem K)) (maxIterations : ℕ)
    (targetClusterCount : Option ℕ)
    (maxClusterSizePercent minClusterSizePercent : K) :
    ℕ → ℕ → ClusteringOptions K → List (Cluster K) → K →
    List (ClusteringOptions K × ClusteringOptions K) → LoopOutcome K
  | 0, _, current, best, bestScore, adjustments =>
      ⟨best, bestScore, current, adjustments⟩
  | fuel + 1, iteration, current, best, bestScore, adjustments =>
      let clusters := clusterFiles sqrt hdbscanLabels files current
      let analysis := analyzeClusteringResults clusters
      let score := calculateClusteringScore analysis files.length targetClusterCount
      let updated := updateBest best bestScore clusters score
      if (8:K)/10 < score then ⟨updated.1, updated.2, current, adjustments⟩
      else if iteration = maxIterations then ⟨updated.1, updated.2, current, adjustments⟩
      else
        let newOptions := adjustClusteringParameters current analysis files.length
          maxClusterSizePercent minClusterSizePercent targetClusterCount
        if newOptions = current then ⟨updated.1, updated.2, current, adjustments⟩
        else
          autoLoop sqrt hdbscanLabels files maxIterations targetClusterCount
            maxClusterSizePercent minClusterSizePercent
            fuel (iteration + 1) newOptions updated.1 updated.2
            (adjustments ++ [(current, newOptions)])

/-- Mirror of `Math.max(20, Math.floor(totalFiles * maxClusterSizePercent))`,
the hard cap `autoClusterFiles` places on the effective maximum cluster
size. -/
def hardMaxClusterSize (totalFiles : ℕ) (maxClusterSizePercent : K) : ℕ :=
  (max 20 ⌊(totalFiles : K) * maxClusterSizePercent⌋).toNat

/-- Mirror of the option initialisation of `autoClusterFiles`: the spread
`{ minClusterSize: 2, similarityThreshold: 0.95, maxClusterSize: 20,
...initialOptions }` followed by the hard-cap clamp
`min(currentOptions.maxClusterSize || 20, hardMaxClusterSize)`. -/
def autoInitialOptions (files : List (FileItem K))
    (initialOptions : ClusteringOptions K)
    (autoOptions : AutoClusteringOptions K) : ClusteringOptions K :=
  let maxClusterSizePercent := autoOptions.maxClusterSizePercent.getD (5/100)
  let base : ClusteringOptions K :=
    { minClusterSize := some (initialOptions.minClusterSize.getD 2),
      minSamples := initialOptions.minSamples,
      similarityThreshold := some (initialOptions.similarityThreshold.getD (95/100)),
      maxClusterSize := some (initialOptions.maxClusterSize.getD 20) }
  { base with maxClusterSize := (some
      (min (jsOrNat base.maxClusterSize 20)
        (hardMaxClusterSize files.length maxClusterSizePercent))) }

/-- Mirror of `autoClusterFiles(files, initialOptions, autoOptions)`:
clamp the options, run the iteration loop starting at iteration 1 with an
empty best partition and best score 0, and package the outcome (the
`iterations` field is `Math.min(maxIterations, adjustments.length + 1)`). -/
def autoClusterFiles (sqrt : K → K)
    (hdbscanLabels : List (List K) → ℕ → ℕ → List ℤ)
    (files : List (FileItem K)) (initialOptions : ClusteringOptions K)
    (autoOptions : AutoClusteringOptions K) : AutoClusteringResult K :=
  let maxIterations := autoOptions.maxIterations.getD 3
  let targetClusterCount := autoOptions.targetClusterCount
  let maxClusterSizePercent := autoOptions.maxClusterSizePercent.getD (5/100)
  let minClusterSizePercent := autoOptions.minClusterSizePercent.getD (2/100)
  let current := autoInitialOptions files initialOptions autoOptions
  let outcome := autoLoop sqrt hdbscanLabels files maxIterations targetClusterCount
    maxClusterSizePercent minClusterSizePercent maxIterations 1 current [] 0 []
  { clusters := outcome.bestClusters,
    iterations := min maxIterations (outcome.adjustments.length + 1),
    finalOptions := outcome.finalOptions,
    adjustments := outcome.adjustments,
    analysis := analyzeClusteringResults outcome.bestClusters }

end AutoCluster

/-!
Concrete instances.  The counterexample runs are performed at the real
semantics `K = ℝ`, `sqrt = Real.sqrt`.  Every similarity the traces below
evaluate goes through `Real.sqrt` at the perfect squares `0`, `1` and `4`
only, so the algebraic evaluation is exact.
-/

noncomputable section ConcreteInstances

/-- Square root of four, needed by the concrete similarity evaluations. -/
theorem sqrt_four : Real.sqrt 4 = 2 := by
  rw [show (4:ℝ) = 2^2 by norm_num, Real.sqrt_sq (by norm_num)]

/-- File with a one-dimensional embedding (the counterexample family). -/
def mkFileItem (p : String) (x : ℝ) : FileItem ℝ := ⟨p, [x], 1, 0⟩

def exF0 : FileItem ℝ := mkFileItem "a" 1
def exF1 : FileItem ℝ := mkFileItem "b" 1
def exF2 : FileItem ℝ := mkFileItem "c" 1
def exF3 : FileItem ℝ := mkFileItem "d" (-1)
def exF4 : FileItem ℝ := mkFileItem "e" (-2)

/-- Five files whose embeddings `[1], [1], [1], [-1], [-2]` average to the
zero vector; with `maxClusterSize = 2` their single raw cluster must be
split into three sub-clusters, and the assignment of the fifth file runs
the swap branch of `splitLargeCluster`. -/
def exFiles : List (FileItem ℝ) := [exF0, exF1, exF2, exF3, exF4]

/-- Oracle placing all five files in one HDBSCAN cluster (an admissible
labelling under the §4.2 contract: one label per vector, values in
`-1..K-1`). -/
def exOracle : List (List ℝ) → ℕ → ℕ → List ℤ := fun _ _ _ => [0, 0, 0, 0, 0]

/-- Options of the counterexample run: `minClusterSize = 2`,
`maxClusterSize = 2`, remaining fields defaulted. -/
def exOpts : ClusteringOptions ℝ := ⟨some 2, none, none, some 2⟩

theorem exEmbF0 : exF0.embedding = [1] := rfl
theorem exEmbF1 : exF1.embedding = [1] := rfl
theorem exEmbF2 : exF2.embedding = [1] := rfl
theorem exEmbF3 : exF3.embedding = [-1] := rfl
theorem exEmbF4 : exF4.embedding = [-2] := rfl
theorem exFiles_len : exFiles.length = 5 := rfl

/-- Similarity of any one-dimensional vector against the zero centroid:
the `normB === 0` early return yields `0`. -/
theorem simZeroCentroid (x : ℝ) : cosineSimilarity Real.sqrt [x] [0] = some 0 := by
  simp [cosineSimilarity, dotList, sqSum, jsDiv]

theorem simN1P1 : cosineSimilarity Real.sqrt [(-1:ℝ)] [1] = some (-1) := by
  norm_num [cosineSimilarity, dotList, sqSum, jsDiv, Real.sqrt_one]

theorem simN2P1 : cosineSimilarity Real.sqrt [(-2:ℝ)] [1] = some (-1) := by
  norm_num [cosineSimilarity, dotList, sqSum, jsDiv, Real.sqrt_one, sqrt_four]

theorem simN2N1 : cosineSimilarity Real.sqrt [(-2:ℝ)] [(-1:ℝ)] = some 1 := by
  norm_num [cosineSimilarity, dotList, sqSum, jsDiv, Real.sqrt_one, sqrt_four]

theorem exCent : calculateCentroid (exFiles.map (fun f => f.embedding)) = [0] := by
  norm_num [calculateCentroid, exFiles, exEmbF0, exEmbF1, exEmbF2, exEmbF3, exEmbF4,
    show List.range 1 = [0] by decide]

theorem exGroup : groupByLabels (([0,0,0,0,0] : List ℤ).zip exFiles) = [(0, exFiles)] := by
  norm_num [groupByLabels, groupInsert, exFiles]

theorem distPos1 : calculateCosineDistance Real.sqrt [(1:ℝ)] [0] = some 1 := by
  norm_num [calculateCosineDistance, simZeroCentroid]
theorem distNeg1 : calculateCosineDistance Real.sqrt [(-1:ℝ)] [0] = some 1 := by
  norm_num [calculateCosineDistance, simZeroCentroid]
theorem distNeg2 : calculateCosineDistance Real.sqrt [(-2:ℝ)] [0] = some 1 := by
  norm_num [calculateCosineDistance, simZeroCentroid]

theorem avgF3s0 : avgSimilarityTo Real.sqrt exF3 [exF0] = some (-1) := by
  norm_num [avgSimilarityTo, jsAvg, jsSum, jsAdd, calculateCosineSimilarity,
    exEmbF0, exEmbF3, simN1P1]
theorem avgF3s1 : avgSimilarityTo Real.sqrt exF3 [exF1] = some (-1) := by
  norm_num [avgSimilarityTo, jsAvg, jsSum, jsAdd, calculateCosineSimilarity,
    exEmbF1, exEmbF3, simN1P1]
theorem avgF3s2 : avgSimilarityTo Real.sqrt exF3 [exF2] = some (-1) := by
  norm_num [avgSimilarityTo, jsAvg, jsSum, jsAdd, calculateCosineSimilarity,
    exEmbF2, exEmbF3, simN1P1]

theorem avgF4s0 : avgSimilarityTo Real.sqrt exF4 [exF0, exF3] = some 0 := by
  norm_num [avgSimilarityTo, jsAvg, jsSum, jsAdd, calculateCosineSimilarity,
    exEmbF0, exEmbF3, exEmbF4, simN2P1, simN2N1]
theorem avgF4s1 : avgSimilarityTo Real.sqrt exF4 [exF1] = some (-1) := by
  norm_num [avgSimilarityTo, jsAvg, jsSum, jsAdd, calculateCosineSimilarity,
    exEmbF1, exEmbF4, simN2P1]
theorem avgF4s2 : avgSimilarityTo Real.sqrt exF4 [exF2] = some (-1) := by
  norm_num [avgSimilarityTo, jsAvg, jsSum, jsAdd, calculateCosineSimilarity,
    exEmbF2, exEmbF4, simN2P1]

/-- In the swap step of the trace, `exF0` (similarity `-1 < 1`) is the
least-similar member of the best-fit sub-cluster `[exF0, exF3]`. -/
theorem exLeast : findLeastSimilarFile Real.sqrt exF4 [exF0, exF3] = 0 := by
  norm_num [findLeastSimilarFile, calculateCosineSimilarity, exEmbF0, exEmbF3, exEmbF4,
    simN2P1, simN2N1, List.enum, List.enumFrom]

/-- First remaining file `exF3`: every open sub-cluster has average
similarity `-1`, no strict improvement over the initial best `-1`, so the
default sub-cluster `0` receives the push. -/
theorem exAssign1 :
    assignFile Real.sqrt 2 3 [[exF0], [exF1], [exF2]] exF3 = [[exF0, exF3], [exF1], [exF2]] := by
  norm_num [assignFile, bestOpenSubCluster, bestFitSubCluster, exLeast,
    avgF3s0, avgF3s1, avgF3s2, List.range_succ, List.range_zero]

/-- Second remaining file `exF4`: sub-cluster `0` is full and stays the
default selection because the open sub-clusters only offer average
similarity `-1`; the swap branch then overwrites `exF0` with `exF4`. -/
theorem exAssign2 :
    assignFile Real.sqrt 2 3 [[exF0, exF3], [exF1], [exF2]] exF4 =
      [[exF4, exF3], [exF1], [exF2]] := by
  norm_num [assignFile, bestOpenSubCluster, bestFitSubCluster, exLeast,
    avgF4s0, avgF4s1, avgF4s2, List.range_succ, List.range_zero]

/-- Full evaluation of `splitLargeCluster` on the counterexample cluster:
the displaced member `exF0` is in no emitted sub-cluster. -/
theorem exSplit :
    splitLargeCluster Real.sqrt ⟨0, exFiles, some [0]⟩ 2 1 =
      [⟨1, [exF4, exF3], some [-3/2]⟩, ⟨2, [exF1], some [1]⟩, ⟨3, [exF2], some [1]⟩] := by
  norm_num [splitLargeCluster, exFiles, exEmbF0, exEmbF1, exEmbF2, exEmbF3, exEmbF4,
    distPos1, distNeg1, distNeg2, exAssign1, exAssign2, calculateCentroid,
    List.insertionSort, List.orderedInsert, distLe, distLeB,
    List.enum, List.enumFrom, show List.range 1 = [0] by decide]
  simp

/-- Full evaluation of `clusterFiles` on the counterexample input. -/
theorem exClusterFiles :
    clusterFiles Real.sqrt exOracle exFiles exOpts =
      [⟨1, [exF4, exF3], some [-3/2]⟩, ⟨2, [exF1], some [1]⟩, ⟨3, [exF2], some [1]⟩] := by
  norm_num [clusterFiles, exOpts, exOracle, exFiles_len, exGroup, exCent, exSplit, jsMaxInt,
    List.insertionSort, List.orderedInsert, clusterOrderLe]

end ConcreteInstances

section SharedLemmas

variable {K : Type} [LinearOrderedField K]

/-- A sum of squares is non-negative. -/
theorem sqSum_nonneg (a : List K) : 0 ≤ sqSum a := by
  apply List.sum_nonneg
  intro x hx
  obtain ⟨y, _, rfl⟩ := List.mem_map.1 hx
  exact mul_self_nonneg y

/-- Cauchy–Schwarz for the truncating list dot product: extra entries of
the longer list only enlarge the right-hand side. -/
theorem dotList_sq_le (a b : List K) : dotList a b ^ 2 ≤ sqSum a * sqSum b := by
  induction a generalizing b with
  | nil => simp [dotList, sqSum]
  | cons x as ih =>
    cases b with
    | nil => simp [dotList, sqSum]
    | cons y bs =>
      have hA := sqSum_nonneg as (K := K)
      have hB := sqSum_nonneg bs (K := K)
      have h := ih bs
      have hd : dotList (x :: as) (y :: bs) = x * y + dotList as bs := by
        simp [dotList]
      have hsa : sqSum (x :: as) = x * x + sqSum as := by simp [sqSum]
      have hsb : sqSum (y :: bs) = y * y + sqSum bs := by simp [sqSum]
      rw [hd, hsa, hsb]
      rcases hB.eq_or_gt with hB0 | hBpos
      · have hsq : dotList as bs ^ 2 = 0 := by
          refine le_antisymm ?_ (sq_nonneg _)
          calc dotList as bs ^ 2 ≤ sqSum as * sqSum bs := h
            _ = 0 := by rw [hB0, mul_zero]
        have hd0 : dotList as bs = 0 := (pow_eq_zero_iff (two_ne_zero)).1 hsq
        rw [hd0, hB0]
        nlinarith [mul_nonneg hA (sq_nonneg y)]
      · nlinarith [sq_nonneg (x * sqSum bs - y * dotList as bs),
          mul_nonneg (add_nonneg (sq_nonneg y) hB) (sub_nonneg.2 h), hBpos]

end SharedLemmas

/-- Claim C8 (corrected).  `cosineSimilarity` returns `0` when the lengths
differ or when `b` has zero norm; but when `a` has zero norm and `b` does
not, the source divides `0` by `0` and returns `NaN` (not `0` as the claim
states); in the remaining case it returns the dot product over the product
of the norms, a value in `[-1, 1]`.  The function is total (never
throws). -/
theorem C8_cosine_similarity (a b : List ℝ) :
    (a.length ≠ b.length → cosineSimilarity Real.sqrt a b = some 0) ∧
    (a.length = b.length → sqSum b = 0 → cosineSimilarity Real.sqrt a b = some 0) ∧
    (a.length = b.length → sqSum b ≠ 0 → sqSum a = 0 →
      cosineSimilarity Real.sqrt a b = none) ∧
    (a.length = b.length → sqSum b ≠ 0 → sqSum a ≠ 0 →
      ∃ r, cosineSimilarity Real.sqrt a b = some r ∧ -1 ≤ r ∧ r ≤ 1) := by
  refine ⟨?_, ?_, ?_, ?_⟩
  · intro h
    simp [cosineSimilarity, h]
  · intro hlen hB
    simp [cosineSimilarity, hlen, hB]
  · intro hlen hB hA
    simp [cosineSimilarity, hlen, hB, hA, jsDiv, Real.sqrt_zero]
  · intro hlen hB hA
    have hA0 : (0:ℝ) < sqSum a := lt_of_le_of_ne (sqSum_nonneg a) (Ne.symm hA)
    have hB0 : (0:ℝ) < sqSum b := lt_of_le_of_ne (sqSum_nonneg b) (Ne.symm hB)
    have hD : (0:ℝ) < Real.sqrt (sqSum a) * Real.sqrt (sqSum b) :=
      mul_pos (Real.sqrt_pos.2 hA0) (Real.sqrt_pos.2 hB0)
    have habs : |dotList a b| ≤ Real.sqrt (sqSum a) * Real.sqrt (sqSum b) := by
      calc |dotList a b| = Real.sqrt (dotList a b ^ 2) := (Real.sqrt_sq_eq_abs _).symm
        _ ≤ Real.sqrt (sqSum a * sqSum b) := Real.sqrt_le_sqrt (dotList_sq_le a b)
        _ = Real.sqrt (sqSum a) * Real.sqrt (sqSum b) := Real.sqrt_mul (sqSum_nonneg a) _
    have hr : |dotList a b / (Real.sqrt (sqSum a) * Real.sqrt (sqSum b))| ≤ 1 := by
      rw [abs_div, abs_of_pos hD]
      exact (div_le_one hD).2 habs
    refine ⟨dotList a b / (Real.sqrt (sqSum a) * Real.sqrt (sqSum b)), ?_,
      (abs_le.1 hr).1, (abs_le.1 hr).2⟩
    simp only [cosineSimilarity, hlen, jsDiv, if_neg hB, ite_not]
    simp [hD.ne']

/-- Witness for C8: at `a = b = [1]` the non-degenerate branch applies and
the similarity is a value in `[-1, 1]`. -/
theorem C8_witness :
    ∃ r, cosineSimilarity Real.sqrt [(1:ℝ)] [1] = some r ∧ -1 ≤ r ∧ r ≤ 1 :=
  (C8_cosine_similarity [1] [1]).2.2.2 rfl (by norm_num [sqSum]) (by norm_num [sqSum])

/-- Counterexample for C8 as stated: for `a = [0]`, `b = [1]` the first
vector has zero norm, yet the function returns `NaN` (the division
`0 / (√0 · √1)`), not `0`. -/
theorem C8_counterexample :
    cosineSimilarity Real.sqrt [(0:ℝ)] [1] = none ∧
    cosineSimilarity Real.sqrt [(0:ℝ)] [1] ≠ some 0 := by
  have h : cosineSimilarity Real.sqrt [(0:ℝ)] [1] = none := by
    norm_num [cosineSimilarity, sqSum, dotList, jsDiv, Real.sqrt_zero, Real.sqrt_one]
  exact ⟨h, by simp [h]⟩

section ScoreBounds

variable {K : Type} [LinearOrderedField K]

/-- The distribution-balance accumulation loop of
`calculateClusteringScore` only adds non-negative terms. -/
theorem foldl_add_max_nonneg (l : List (K × K)) (s : K) (hs : 0 ≤ s) :
    0 ≤ l.foldl (fun acc p => acc + max 0 (1 - |p.2 - p.1|)) s := by
  induction l generalizing s with
  | nil => simpa
  | cons p t ih => exact ih _ (add_nonneg hs (le_max_left _ _))

/-- Each term of the distribution-balance loop is at most `1`, so the loop
adds at most the number of buckets. -/
theorem foldl_add_max_le (l : List (K × K)) (s : K) :
    l.foldl (fun acc p => acc + max 0 (1 - |p.2 - p.1|)) s ≤ s + l.length := by
  induction l generalizing s with
  | nil => simp
  | cons p t ih =>
    have hterm : max 0 (1 - |p.2 - p.1|) ≤ 1 :=
      max_le (by norm_num) (by nlinarith [abs_nonneg (p.2 - p.1)])
    calc (p :: t).foldl (fun acc q => acc + max 0 (1 - |q.2 - q.1|)) s
        = t.foldl (fun acc q => acc + max 0 (1 - |q.2 - q.1|))
            (s + max 0 (1 - |p.2 - p.1|)) := by simp
      _ ≤ (s + max 0 (1 - |p.2 - p.1|)) + t.length := ih _
      _ ≤ (s + 1) + t.length := by linarith
      _ = s + (t.length + 1) := by ring
      _ = s + (p :: t).length := by simp [add_comm]

/-- The three active weight terms of `calculateClusteringScore` are each
non-negative. -/
theorem calculateClusteringScore_nonneg (analysis : ClusteringAnalysis)
    (totalFiles : ℕ) (targetClusterCount : Option ℕ) :
    0 ≤ calculateClusteringScore (K := K) analysis totalFiles targetClusterCount := by
  unfold calculateClusteringScore
  apply le_min (by norm_num)
  have h1 : (0:K) ≤ (match targetClusterCount with
    | some target =>
        if target = 0 then 0
        else
          max 0 (1 - |(analysis.totalClusters : K) - (target : K)| / (target : K)) * (3/10)
    | none => 0) := by
    rcases targetClusterCount with _ | t
    · simp
    · by_cases ht : t = 0
      · simp [ht]
      · simp only [ht, if_false]
        exact mul_nonneg (le_max_left _ _) (by norm_num)
  have h2 : (0:K) ≤ (((idealSizes (K := K)).zip (actualSizes (K := K) analysis)).foldl
      (fun s p => s + max 0 (1 - |p.2 - p.1|)) 0) / ((idealSizes (K := K)).length : K) :=
    div_nonneg (foldl_add_max_nonneg _ _ le_rfl) (by positivity)
  have h3 : (0:K) ≤ max 0 (1 - max 0
      ((jsMaxNat analysis.clusterSizes : K) / (totalFiles : K) - 5/100) * 6) * (3/10) :=
    mul_nonneg (le_max_left _ _) (by norm_num)
  exact add_nonneg (add_nonneg h1 (mul_nonneg h2 (by norm_num))) h3

end ScoreBounds

/-- Claim C4 (confirmed).  For every analysis produced from a non-empty
partition and every positive `totalFiles` and optional target,
`calculateClusteringScore` lies in `[0, 1]`; the `Math.min(1, score)` cap
gives the upper bound and every weighted term is non-negative.  (The bound
holds for every `K` and does not in fact need the two hypotheses, which
delimit the partitions the claim quantifies over.) -/
theorem C4_score_bounds {K : Type} [LinearOrderedField K]
    (clusters : List (Cluster K)) (totalFiles : ℕ) (targetClusterCount : Option ℕ)
    (hne : clusters ≠ []) (htf : 1 ≤ totalFiles) :
    0 ≤ calculateClusteringScore (K := K) (analyzeClusteringResults clusters)
        totalFiles targetClusterCount ∧
    calculateClusteringScore (K := K) (analyzeClusteringResults clusters)
        totalFiles targetClusterCount ≤ 1 := by
  refine ⟨calculateClusteringScore_nonneg _ _ _, ?_⟩
  unfold calculateClusteringScore
  exact min_le_left _ _

/-- Witness for C4: a single cluster holding one file. -/
theorem C4_witness :
    0 ≤ calculateClusteringScore (K := ℝ)
        (analyzeClusteringResults [⟨0, [mkFileItem "a" 1], none⟩]) 1 none ∧
    calculateClusteringScore (K := ℝ)
        (analyzeClusteringResults [⟨0, [mkFileItem "a" 1], none⟩]) 1 none ≤ 1 :=
  C4_score_bounds [⟨0, [mkFileItem "a" 1], none⟩] 1 none (by simp) le_rfl

/-- Claim C9 (corrected).  When `targetClusterCount` is supplied the three
active weights are `0.3 + 0.4 + 0.3 = 1`; when it is absent the remaining
weights sum to `0.7` and are *not* renormalized: every score computed
without a target is at most `0.7`, so a perfectly balanced partition
cannot attain `1` without a target. -/
theorem C9_no_target_weight_cap {K : Type} [LinearOrderedField K]
    (analysis : ClusteringAnalysis) (totalFiles : ℕ) :
    calculateClusteringScore (K := K) analysis totalFiles none ≤ 7/10 := by
  unfold calculateClusteringScore
  refine le_trans (min_le_right _ _) ?_
  have hlen : ((idealSizes (K := K)).zip (actualSizes (K := K) analysis)).length = 6 := by
    simp [idealSizes, actualSizes]
  have hfold : (((idealSizes (K := K)).zip (actualSizes (K := K) analysis)).foldl
      (fun s p => s + max 0 (1 - |p.2 - p.1|)) 0) ≤ 6 := by
    have := foldl_add_max_le ((idealSizes (K := K)).zip (actualSizes (K := K) analysis)) 0
    rw [hlen] at this
    simpa using this
  have hdist : (((idealSizes (K := K)).zip (actualSizes (K := K) analysis)).foldl
      (fun s p => s + max 0 (1 - |p.2 - p.1|)) 0) / ((idealSizes (K := K)).length : K) ≤ 1 := by
    have h6 : ((idealSizes (K := K)).length : K) = 6 := by simp [idealSizes]
    rw [h6]
    exact (div_le_one (by norm_num)).2 hfold
  have hpen : max 0 (1 - max 0
      ((jsMaxNat analysis.clusterSizes : K) / (totalFiles : K) - 5/100) * 6) ≤ 1 := by
    refine max_le (by norm_num) ?_
    have : (0:K) ≤ max 0 ((jsMaxNat analysis.clusterSizes : K) / (totalFiles : K) - 5/100) * 6 :=
      mul_nonneg (le_max_left _ _) (by norm_num)
    linarith
  have hd0 : (0:K) ≤ (((idealSizes (K := K)).zip (actualSizes (K := K) analysis)).foldl
      (fun s p => s + max 0 (1 - |p.2 - p.1|)) 0) / ((idealSizes (K := K)).length : K) :=
    div_nonneg (foldl_add_max_nonneg _ _ le_rfl) (by positivity)
  nlinarith [hdist, hpen, hd0, le_max_left (0:K) (1 - max 0
      ((jsMaxNat analysis.clusterSizes : K) / (totalFiles : K) - 5/100) * 6)]

/-- Statistics of a partition that matches the ideal bucket profile
exactly (20 clusters distributed `[2,4,6,4,3,1]` over the six buckets) and
whose largest cluster is exactly 5% of the `totalFiles` argument `2020`
used below: both active sub-scores are maximal. -/
def exPerfectAnalysis : ClusteringAnalysis :=
  { totalClusters := 20, totalFiles := 529,
    clusterSizes := [101, 60, 60, 60, 30, 30, 30, 30, 15, 15, 15, 15, 15, 15, 8, 8, 8, 8, 3, 3],
    sizeDistribution := ⟨2, 4, 6, 4, 3, 1⟩ }

/-- Counterexample for C9 as stated: on statistics where both active
sub-scores are maximal, the score without a target is `0.7`, not `1`,
while the same statistics with a matching target score `1` — the absent
target weight is simply dropped, not renormalized. -/
theorem C9_counterexample :
    calculateClusteringScore (K := ℝ) exPerfectAnalysis 2020 none = 7/10 ∧
    calculateClusteringScore (K := ℝ) exPerfectAnalysis 2020 (some 20) = 1 := by
  constructor <;>
    norm_num [calculateClusteringScore, exPerfectAnalysis, idealSizes, actualSizes, jsMaxNat]

/-- Claim C5 (corrected).  There is no input validation and no
`InvalidInput` error anywhere in the engine: for an empty input list
`clusterFiles` takes the `files.length < minClusterSize` short-circuit
(whenever the effective `minClusterSize` is positive, e.g. its default
`2`) and returns a partition consisting of one cluster with id `0` and no
members — it does not fail. -/
theorem C5_empty_input {K : Type} [LinearOrderedField K] (sqrt : K → K)
    (hdbscanLabels : List (List K) → ℕ → ℕ → List ℤ)
    (options : ClusteringOptions K)
    (hmin : 0 < options.minClusterSize.getD 2) :
    clusterFiles sqrt hdbscanLabels [] options = [⟨0, [], none⟩] := by
  simp [clusterFiles, hmin]

/-- Witness for C5 at concrete options with `minClusterSize = 2`. -/
theorem C5_witness :
    clusterFiles Real.sqrt exOracle [] exOpts = [⟨0, [], none⟩] :=
  C5_empty_input Real.sqrt exOracle exOpts (by norm_num [exOpts])

/-- Counterexample for C5 as stated: with all options defaulted,
`clusterFiles` on the empty list *returns a partition* (one empty cluster)
instead of failing with an InvalidInput error before any clustering
attempt. -/
theorem C5_counterexample :
    clusterFiles Real.sqrt exOracle [] ⟨none, none, none, none⟩ = [⟨0, [], none⟩] := by
  norm_num [clusterFiles]

/-- Claim C1 (corrected), counterexample to the claim as stated: on five
files `[1], [1], [1], [-1], [-2]` in one raw cluster with
`maxClusterSize = 2`, the swap branch of `splitLargeCluster` runs while
assigning the fifth file and overwrites the first file, so the first file
appears in *no* cluster of the returned partition — the union of the
members is strictly smaller than the input. -/
theorem C1_counterexample :
    exF0 ∈ exFiles ∧
    exF0 ∉ clusterMembers (clusterFiles Real.sqrt exOracle exFiles exOpts) := by
  constructor
  · simp [exFiles]
  · rw [exClusterFiles]
    simp [clusterMembers, exF0, exF1, exF2, exF3, exF4, mkFileItem]

section AssignLemmas

/-- Replacing entry `i` by a list of the same length leaves every
sub-cluster length unchanged. -/
theorem getD_set_length {α : Type} (st : List (List α)) (i j : ℕ) (x : List α)
    (hx : x.length = (st.getD i []).length) :
    ((st.set i x).getD j []).length = ((st.getD j []).length) := by
  induction st generalizing i j with
  | nil => simp
  | cons hd t ih =>
    cases i with
    | zero =>
      cases j with
      | zero => simpa using hx
      | succ j => simp
    | succ i =>
      cases j with
      | zero => simp
      | succ j =>
        simp only [List.set_cons_succ, List.getD_cons_succ] at hx ⊢
        exact ih i j hx

end AssignLemmas

/-- Claim C3 (corrected).  The swap branch of the assignment loop runs
whenever the *selected* sub-cluster is full (not when every sub-cluster
is full — by a capacity argument that situation cannot arise; the branch
is reached because the selection loop falls back to index `0` when no open
sub-cluster improves on the initial best similarity `-1`).  When it runs
and `findLeastSimilarFile` succeeds, the least-similar member of the
best-fit sub-cluster is overwritten in place by the new member: every
sub-cluster length (hence the size bound) is preserved, and the resulting
state is exactly the overwrite — the displaced member is dropped, not
reinserted into the assignment pool. -/
theorem C3_swap_replaces_and_drops {K : Type} [LinearOrderedField K] (sqrt : K → K)
    (maxClusterSize numSubClusters : ℕ)
    (st : List (List (FileItem K))) (file : FileItem K)
    (hfull : ¬ (st.getD (bestOpenSubCluster sqrt maxClusterSize numSubClusters st file).1
      []).length < maxClusterSize)
    (hidx : findLeastSimilarFile sqrt file
      (st.getD (bestFitSubCluster sqrt numSubClusters st file) []) ≠ -1) :
    assignFile sqrt maxClusterSize numSubClusters st file =
      st.set (bestFitSubCluster sqrt numSubClusters st file)
        ((st.getD (bestFitSubCluster sqrt numSubClusters st file) []).set
          (findLeastSimilarFile sqrt file
            (st.getD (bestFitSubCluster sqrt numSubClusters st file) [])).toNat file) ∧
    ∀ j, ((assignFile sqrt maxClusterSize numSubClusters st file).getD j []).length =
      (st.getD j []).length := by
  have heq : assignFile sqrt maxClusterSize numSubClusters st file =
      st.set (bestFitSubCluster sqrt numSubClusters st file)
        ((st.getD (bestFitSubCluster sqrt numSubClusters st file) []).set
          (findLeastSimilarFile sqrt file
            (st.getD (bestFitSubCluster sqrt numSubClusters st file) [])).toNat file) := by
    unfold assignFile
    simp only [if_neg hfull, if_neg hidx]
  refine ⟨heq, fun j => ?_⟩
  rw [heq]
  exact getD_set_length st _ j _ (by rw [List.length_set])

/-- Witness for C3: in the concrete swap step of the counterexample trace,
the sub-cluster lengths are preserved (checked at sub-cluster `0`). -/
theorem C3_witness :
    ((assignFile Real.sqrt 2 3 [[exF0, exF3], [exF1], [exF2]] exF4).getD 0 []).length =
      (([[exF0, exF3], [exF1], [exF2]] : List (List (FileItem ℝ))).getD 0 []).length :=
  (C3_swap_replaces_and_drops Real.sqrt 2 3 [[exF0, exF3], [exF1], [exF2]] exF4
    (by norm_num [bestOpenSubCluster, avgF4s1, avgF4s2, List.range_succ, List.range_zero])
    (by norm_num [bestFitSubCluster, avgF4s0, avgF4s1, avgF4s2, exLeast,
      List.range_succ, List.range_zero])).2 0

/-- Counterexample for C3 as stated: in the concrete `splitLargeCluster`
run, the member displaced by the swap (`exF0`) is not reinserted into the
assignment pool — it is assigned to *no* sub-cluster of the result. -/
theorem C3_counterexample :
    exF0 ∈ (⟨0, exFiles, some [0]⟩ : Cluster ℝ).files ∧
    exF0 ∉ clusterMembers (splitLargeCluster Real.sqrt ⟨0, exFiles, some [0]⟩ 2 1) := by
  constructor
  · simp [exFiles]
  · rw [exSplit]
    simp [clusterMembers, exF0, exF1, exF2, exF3, exF4, mkFileItem]

section LoopLemmas

variable {K : Type} [LinearOrderedField K]

/-- One best-tracking update never decreases the best score. -/
theorem updateBest_score_le (best : List (Cluster K)) (bestScore : K)
    (clusters : List (Cluster K)) (score : K) :
    bestScore ≤ (updateBest best bestScore clusters score).2 := by
  unfold updateBest
  split
  · exact le_of_lt (by assumption)
  · exact le_rfl

end LoopLemmas

/-- Claim C7 (confirmed).  Across the `autoClusterFiles` loop the tracked
best score never decreases (whatever the remaining fuel and loop state),
and the best partition is replaced exactly when the current score strictly
exceeds the best score — on a tie (`score ≤ bestScore`, hence in
particular equality) the earlier partition and score are kept. -/
theorem C7_monotonic_best {K : Type} [LinearOrderedField K] [FloorRing K]
    (sqrt : K → K) (hdbscanLabels : List (List K) → ℕ → ℕ → List ℤ)
    (files : List (FileItem K)) (maxIterations : ℕ) (targetClusterCount : Option ℕ)
    (maxClusterSizePercent minClusterSizePercent : K) :
    (∀ (fuel iteration : ℕ) (current : ClusteringOptions K) (best : List (Cluster K))
      (bestScore : K) (adjustments : List (ClusteringOptions K × ClusteringOptions K)),
      bestScore ≤ (autoLoop sqrt hdbscanLabels files maxIterations targetClusterCount
        maxClusterSizePercent minClusterSizePercent fuel iteration current best bestScore
        adjustments).bestScore) ∧
    (∀ (best : List (Cluster K)) (bestScore : K) (clusters : List (Cluster K)) (score : K),
      score ≤ bestScore → updateBest best bestScore clusters score = (best, bestScore)) ∧
    (∀ (best : List (Cluster K)) (bestScore : K) (clusters : List (Cluster K)) (score : K),
      bestScore < score → updateBest best bestScore clusters score = (clusters, score)) := by
  refine ⟨?_, ?_, ?_⟩
  · intro fuel
    induction fuel with
    | zero => intro iteration current best bestScore adjustments; simp [autoLoop]
    | succ fuel ih =>
      intro iteration current best bestScore adjustments
      simp only [autoLoop]
      split
      · exact updateBest_score_le _ _ _ _
      · split
        · exact updateBest_score_le _ _ _ _
        · split
          · exact updateBest_score_le _ _ _ _
          · exact le_trans (updateBest_score_le _ _ _ _) (ih _ _ _ _ _)
  · intro best bestScore clusters score h
    simp [updateBest, not_lt.2 h]
  · intro best bestScore clusters score h
    simp [updateBest, h]

/-- Witness for C7: loop with no fuel left keeps the best score, and a
concrete tying update keeps the earlier pair. -/
theorem C7_witness :
    (0:ℝ) ≤ (autoLoop Real.sqrt exOracle [] 0 none (5/100) (2/100) 0 1
      ⟨none, none, none, none⟩ [] 0 []).bestScore ∧
    updateBest ([] : List (Cluster ℝ)) 1 [⟨0, [], none⟩] 1 = ([], 1) :=
  ⟨(C7_monotonic_best Real.sqrt exOracle [] 0 none (5/100) (2/100)).1 0 1
      ⟨none, none, none, none⟩ [] 0 [],
    (C7_monotonic_best Real.sqrt exOracle [] 0 none (5/100) (2/100)).2.1 [] 1 [⟨0, [], none⟩] 1
      le_rfl⟩

/-- Claim C6 (confirmed).  If, at a loop state of iteration `i` with
`i < maxIterations` (so the budget break is not taken), the score is not
above the good-enough threshold `0.8` and `adjustClusteringParameters`
returns the current options unchanged, then the loop returns immediately:
the result carries exactly iteration `i`'s best-update, final options and
unchanged adjustment log (so no further clustering attempt is made), and
the `iterations` field `min(maxIterations, adjustments.length + 1)`
reported by `autoClusterFiles` equals `i` — the loop stops at iteration
`i`, not before (iteration `i`'s own clustering and scoring are part of
the result) and not after. -/
theorem C6_convergence_stop {K : Type} [LinearOrderedField K] [FloorRing K]
    (sqrt : K → K) (hdbscanLabels : List (List K) → ℕ → ℕ → List ℤ)
    (files : List (FileItem K)) (maxIterations : ℕ) (targetClusterCount : Option ℕ)
    (maxClusterSizePercent minClusterSizePercent : K)
    (iteration : ℕ) (current : ClusteringOptions K) (best : List (Cluster K))
    (bestScore : K) (adjustments : List (ClusteringOptions K × ClusteringOptions K))
    (hlt : iteration < maxIterations)
    (hadj : adjustments.length + 1 = iteration)
    (hscore : ¬ ((8:K)/10 < calculateClusteringScore
      (analyzeClusteringResults (clusterFiles sqrt hdbscanLabels files current))
      files.length targetClusterCount))
    (hconv : adjustClusteringParameters current
      (analyzeClusteringResults (clusterFiles sqrt hdbscanLabels files current))
      files.length maxClusterSizePercent minClusterSizePercent targetClusterCount = current) :
    autoLoop sqrt hdbscanLabels files maxIterations targetClusterCount
        maxClusterSizePercent minClusterSizePercent
        (maxIterations + 1 - iteration) iteration current best bestScore adjustments =
      ⟨(updateBest best bestScore (clusterFiles sqrt hdbscanLabels files current)
          (calculateClusteringScore
            (analyzeClusteringResults (clusterFiles sqrt hdbscanLabels files current))
            files.length targetClusterCount)).1,
        (updateBest best bestScore (clusterFiles sqrt hdbscanLabels files current)
          (calculateClusteringScore
            (analyzeClusteringResults (clusterFiles sqrt hdbscanLabels files current))
            files.length targetClusterCount)).2, current, adjustments⟩ ∧
    min maxIterations (adjustments.length + 1) = iteration := by
  constructor
  · have hfuel : maxIterations + 1 - iteration = (maxIterations - iteration - 1) + 1 + 1 := by
      omega
    rw [hfuel]
    simp only [autoLoop]
    rw [if_neg hscore, if_neg (Nat.ne_of_lt hlt), if_pos hconv]
  · omega

/-- Witness for C6: two files whose single size-2 cluster scores `0.28`
and fires none of the six adjustment rules once the options are already at
the rules' fixed point (`similarityThreshold = 0.7`, `maxClusterSize = 5`)
and the caller-supplied `maxClusterSizePercent` is `1`. -/
theorem C6_witness :
    autoLoop Real.sqrt (fun _ _ _ => [0, 0]) [exF0, exF1] 3 none 1 (2/100)
        3 1 ⟨some 2, none, some (7/10), some 5⟩ [] 0 [] =
      ⟨(updateBest [] 0 (clusterFiles Real.sqrt (fun _ _ _ => [0, 0]) [exF0, exF1]
          ⟨some 2, none, some (7/10), some 5⟩)
          (calculateClusteringScore
            (analyzeClusteringResults (clusterFiles Real.sqrt (fun _ _ _ => [0, 0])
              [exF0, exF1] ⟨some 2, none, some (7/10), some 5⟩))
            ([exF0, exF1] : List (FileItem ℝ)).length none)).1,
        (updateBest [] 0 (clusterFiles Real.sqrt (fun _ _ _ => [0, 0]) [exF0, exF1]
          ⟨some 2, none, some (7/10), some 5⟩)
          (calculateClusteringScore
            (analyzeClusteringResults (clusterFiles Real.sqrt (fun _ _ _ => [0, 0])
              [exF0, exF1] ⟨some 2, none, some (7/10), some 5⟩))
            ([exF0, exF1] : List (FileItem ℝ)).length none)).2,
        ⟨some 2, none, some (7/10), some 5⟩, []⟩ ∧
    min 3 (([] : List (ClusteringOptions ℝ × ClusteringOptions ℝ)).length + 1) = 1 := by
  have hcf : clusterFiles Real.sqrt (fun _ _ _ => [0, 0]) [exF0, exF1]
      ⟨some 2, none, some (7/10), some 5⟩ = [⟨0, [exF0, exF1], some [1]⟩] := by
    norm_num [clusterFiles, groupByLabels, groupInsert, calculateCentroid, jsMaxInt,
      exEmbF0, exEmbF1, List.insertionSort, List.orderedInsert, clusterOrderLe,
      show List.range 1 = [0] by decide]
  have han : analyzeClusteringResults [(⟨0, [exF0, exF1], some [1]⟩ : Cluster ℝ)] =
      ⟨1, 2, [2], ⟨1, 0, 0, 0, 0, 0⟩⟩ := by
    norm_num [analyzeClusteringResults, bucketize, List.insertionSort, List.orderedInsert,
      sizeDescLe]
  have hsc : calculateClusteringScore (K := ℝ) ⟨1, 2, [2], ⟨1, 0, 0, 0, 0, 0⟩⟩ 2 none =
      7/25 := by
    norm_num [calculateClusteringScore, idealSizes, actualSizes, jsMaxNat, abs_of_nonneg]
  have hscore : ¬ ((8:ℝ)/10 < calculateClusteringScore
      (analyzeClusteringResults (clusterFiles Real.sqrt (fun _ _ _ => [0, 0])
        [exF0, exF1] ⟨some 2, none, some (7/10), some 5⟩))
      ([exF0, exF1] : List (FileItem ℝ)).length none) := by
    rw [hcf, han]
    norm_num [hsc]
  have hconv : adjustClusteringParameters (⟨some 2, none, some (7/10), some 5⟩ :
      ClusteringOptions ℝ)
      (analyzeClusteringResults (clusterFiles Real.sqrt (fun _ _ _ => [0, 0])
        [exF0, exF1] ⟨some 2, none, some (7/10), some 5⟩))
      ([exF0, exF1] : List (FileItem ℝ)).length 1 (2/100) none =
      ⟨some 2, none, some (7/10), some 5⟩ := by
    rw [hcf, han]
    norm_num [adjustClusteringParameters, jsMaxNat, jsTruthy, jsTruthyNat, jsOrNat, jsOrK]
  exact C6_convergence_stop Real.sqrt (fun _ _ _ => [0, 0]) [exF0, exF1] 3 none 1 (2/100)
    1 ⟨some 2, none, some (7/10), some 5⟩ [] 0 [] (by norm_num) rfl hscore hconv

/-- Claim C10 (confirmed).  Before the first iteration `autoClusterFiles`
clamps the effective `maxClusterSize` to the minimum of the caller value
(JavaScript-falsy values defaulting to `20`) and the hard cap
`max(20, ⌊totalFiles · maxClusterSizePercent⌋)`; and any caller value at
or above the hard cap is silently overridden and never used — the entire
result is the same as if the caller had passed the hard cap itself. -/
theorem C10_hard_cap {K : Type} [LinearOrderedField K] [FloorRing K]
    (sqrt : K → K) (hdbscanLabels : List (List K) → ℕ → ℕ → List ℤ)
    (files : List (FileItem K)) (initialOptions : ClusteringOptions K)
    (autoOptions : AutoClusteringOptions K) (m : ℕ)
    (hm : hardMaxClusterSize (K := K) files.length
      (autoOptions.maxClusterSizePercent.getD (5/100)) ≤ m) :
    (autoInitialOptions files initialOptions autoOptions).maxClusterSize =
      some (min (jsOrNat (some (initialOptions.maxClusterSize.getD 20)) 20)
        (hardMaxClusterSize (K := K) files.length
          (autoOptions.maxClusterSizePercent.getD (5/100)))) ∧
    autoClusterFiles sqrt hdbscanLabels files
        { initialOptions with maxClusterSize := some m } autoOptions =
      autoClusterFiles sqrt hdbscanLabels files
        { initialOptions with maxClusterSize := (some
          (hardMaxClusterSize (K := K) files.length
            (autoOptions.maxClusterSizePercent.getD (5/100)))) } autoOptions := by
  have hcap20 : 20 ≤ hardMaxClusterSize (K := K) files.length
      (autoOptions.maxClusterSizePercent.getD (5/100)) := by
    unfold hardMaxClusterSize
    have h20 : ((20:ℕ) : ℤ) ≤ max 20 ⌊(files.length : K) *
        autoOptions.maxClusterSizePercent.getD (5/100)⌋ := by
      exact_mod_cast le_max_left _ _
    omega
  constructor
  · rfl
  · have hinit : autoInitialOptions files
        { initialOptions with maxClusterSize := some m } autoOptions =
        autoInitialOptions files
          { initialOptions with maxClusterSize := (some
            (hardMaxClusterSize (K := K) files.length
              (autoOptions.maxClusterSizePercent.getD (5/100)))) } autoOptions := by
      unfold autoInitialOptions
      have hm0 : m ≠ 0 := by omega
      have hc0 : hardMaxClusterSize (K := K) files.length
          (autoOptions.maxClusterSizePercent.getD (5/100)) ≠ 0 := by omega
      simp only [jsOrNat, Option.getD_some, if_neg hm0, if_neg hc0]
      rw [min_eq_right hm, min_self]
    unfold autoClusterFiles
    rw [hinit]

/-- Witness for C10: empty file list, caller-supplied `maxClusterSize`
100, default auto-options; the hard cap is `max(20, ⌊0 · 0.05⌋) = 20`. -/
theorem C10_witness :
    (autoInitialOptions ([] : List (FileItem ℝ)) ⟨none, none, none, some 100⟩
        ⟨none, none, none, none, none⟩).maxClusterSize =
      some (min (jsOrNat (some ((some (100:ℕ)).getD 20)) 20)
        (hardMaxClusterSize (K := ℝ) ([] : List (FileItem ℝ)).length
          ((none : Option ℝ).getD (5/100)))) ∧
    autoClusterFiles Real.sqrt exOracle ([] : List (FileItem ℝ))
        ⟨none, none, none, some 100⟩ ⟨none, none, none, none, none⟩ =
      autoClusterFiles Real.sqrt exOracle ([] : List (FileItem ℝ))
        ⟨none, none, none, some (hardMaxClusterSize (K := ℝ)
          ([] : List (FileItem ℝ)).length ((none : Option ℝ).getD (5/100)))⟩
        ⟨none, none, none, none, none⟩ :=
  C10_hard_cap Real.sqrt exOracle [] ⟨none, none, none, some 100⟩
    ⟨none, none, none, none, none⟩ 100
    (by norm_num [hardMaxClusterSize])

section SizeBound

variable {K : Type} [LinearOrderedField K]

/-- An out-of-range `getD` is the default; otherwise the entry is a member
of the list. -/
theorem getD_mem_or_eq {α : Type} (l : List α) (i : ℕ) (d : α) :
    l.getD i d ∈ l ∨ l.getD i d = d := by
  induction l generalizing i with
  | nil => right; simp
  | cons h t ih =>
    cases i with
    | zero => left; simp
    | succ i =>
      rcases ih i with h1 | h1
      · left; simp only [List.getD_cons_succ]; exact List.mem_cons_of_mem _ h1
      · right; simpa using h1

/-- One assignment step keeps every sub-cluster within the bound: a push
is guarded by strict inequality, and a swap overwrites in place. -/
theorem assignFile_size_le (sqrt : K → K) (maxClusterSize numSubClusters : ℕ)
    (st : List (List (FileItem K))) (file : FileItem K)
    (h : ∀ l ∈ st, l.length ≤ maxClusterSize) :
    ∀ l ∈ assignFile sqrt maxClusterSize numSubClusters st file,
      l.length ≤ maxClusterSize := by
  intro l hl
  simp only [assignFile] at hl
  by_cases hp : (st.getD (bestOpenSubCluster sqrt maxClusterSize numSubClusters st file).1
      []).length < maxClusterSize
  · rw [if_pos hp] at hl
    rcases List.mem_or_eq_of_mem_set hl with h1 | h1
    · exact h l h1
    · rw [h1, List.length_append]
      simpa using hp
  · rw [if_neg hp] at hl
    by_cases hi : findLeastSimilarFile sqrt file
        (st.getD (bestFitSubCluster sqrt numSubClusters st file) []) = -1
    · rw [if_pos hi] at hl
      exact h l hl
    · rw [if_neg hi] at hl
      rcases List.mem_or_eq_of_mem_set hl with h1 | h1
      · exact h l h1
      · rw [h1, List.length_set]
        rcases getD_mem_or_eq st (bestFitSubCluster sqrt numSubClusters st file) [] with
          h2 | h2
        · exact h _ h2
        · rw [h2]; simp
      
/-- The assignment fold keeps every sub-cluster within the bound. -/
theorem foldl_assign_size_le (sqrt : K → K) (maxClusterSize numSubClusters : ℕ)
    (pool : List (ℕ × FileItem K)) (st : List (List (FileItem K)))
    (h : ∀ l ∈ st, l.length ≤ maxClusterSize) :
    ∀ l ∈ pool.foldl (fun st p => assignFile sqrt maxClusterSize numSubClusters st p.2) st,
      l.length ≤ maxClusterSize := by
  induction pool generalizing st with
  | nil => simpa
  | cons p t ih =>
    simp only [List.foldl_cons]
    exact ih _ (assignFile_size_le sqrt maxClusterSize numSubClusters st p.2 h)


/-- Members of an enumerated list are members of the list. -/
theorem snd_mem_of_mem_enumFrom {α : Type} {x : ℕ × α} :
    ∀ {n : ℕ} {l : List α}, x ∈ l.enumFrom n → x.2 ∈ l := by
  intro n l
  induction l generalizing n with
  | nil => simp
  | cons h t ih =>
    intro hx
    simp only [List.enumFrom] at hx
    rcases List.mem_cons.1 hx with rfl | hx
    · simp
    · exact List.mem_cons_of_mem _ (ih hx)

/-- The emission step of `splitLargeCluster` (filter empty sub-clusters,
enumerate ids, build clusters) preserves the size bound. -/
theorem emit_size_le (maxClusterSize : ℕ) (startClusterId : ℤ)
    (st : List (List (FileItem K)))
    (h : ∀ l ∈ st, l.length ≤ maxClusterSize) :
    ∀ cl ∈ (st.filter (fun l => decide (l ≠ []))).enum.map
      (fun p =>
        ({ id := startClusterId + (p.1 : ℤ), files := p.2,
           centroid := some (calculateCentroid (p.2.map (fun f => f.embedding))) } :
          Cluster K)),
      cl.files.length ≤ maxClusterSize := by
  intro cl hcl
  obtain ⟨p, hp, rfl⟩ := List.mem_map.1 hcl
  exact h p.2 (List.mem_of_mem_filter (snd_mem_of_mem_enumFrom hp))

/-- Every sub-cluster emitted by `splitLargeCluster` for a genuinely
oversized cluster respects the bound. -/
theorem splitLargeCluster_size_le (sqrt : K → K) (c : Cluster K)
    (maxClusterSize : ℕ) (startClusterId : ℤ)
    (hmax : 1 ≤ maxClusterSize) (hbig : maxClusterSize < c.files.length) :
    ∀ cl ∈ splitLargeCluster sqrt c maxClusterSize startClusterId,
      cl.files.length ≤ maxClusterSize := by
  intro cl hcl
  simp only [splitLargeCluster] at hcl
  rw [if_neg (not_le.2 hbig)] at hcl
  have hns : 2 ≤ (c.files.length + maxClusterSize - 1) / maxClusterSize := by
    rw [Nat.le_div_iff_mul_le (by omega)]
    omega
  rw [if_neg (by omega)] at hcl
  refine emit_size_le maxClusterSize _ _ ?_ cl hcl
  refine foldl_assign_size_le sqrt maxClusterSize _ _ _ ?_
  intro l hl
  obtain ⟨t, _, rfl⟩ := List.mem_map.1 hl
  simpa using hmax

end SizeBound

/-- Claim C2 (confirmed).  Whenever the input has at least
`minClusterSize` files (so the single-partition short-circuit is not
taken) and the effective `maxClusterSize` is at least `1`, every cluster
returned by `clusterFiles` — for any labelling the HDBSCAN oracle may
produce — has at most `maxClusterSize` members. -/
theorem C2_size_bound {K : Type} [LinearOrderedField K]
    (sqrt : K → K) (hdbscanLabels : List (List K) → ℕ → ℕ → List ℤ)
    (files : List (FileItem K)) (options : ClusteringOptions K)
    (hmin : options.minClusterSize.getD 2 ≤ files.length)
    (hmax : 1 ≤ options.maxClusterSize.getD 50) :
    ∀ c ∈ clusterFiles sqrt hdbscanLabels files options,
      c.files.length ≤ options.maxClusterSize.getD 50 := by
  intro c hc
  simp only [clusterFiles] at hc
  rw [if_neg (not_lt.2 hmin)] at hc
  rw [List.mem_insertionSort] at hc
  revert c hc
  have main : ∀ (cl : List (Cluster K)) (acc : List (Cluster K) × ℤ),
      (∀ c ∈ acc.1, c.files.length ≤ options.maxClusterSize.getD 50) →
      ∀ c ∈ (cl.foldl (fun (acc : List (Cluster K) × ℤ) d =>
        if d.files.length ≤ options.maxClusterSize.getD 50 then (acc.1 ++ [d], acc.2)
        else
          (acc.1 ++ splitLargeCluster sqrt d (options.maxClusterSize.getD 50) acc.2,
            acc.2 + ((splitLargeCluster sqrt d (options.maxClusterSize.getD 50)
              acc.2).length : ℤ))) acc).1,
        c.files.length ≤ options.maxClusterSize.getD 50 := by
    intro cl
    induction cl with
    | nil => intro acc hacc; simpa using hacc
    | cons d t ih =>
      intro acc hacc
      simp only [List.foldl_cons]
      apply ih
      by_cases hd : d.files.length ≤ options.maxClusterSize.getD 50
      · rw [if_pos hd]
        intro c hc
        rcases List.mem_append.1 hc with h1 | h1
        · exact hacc c h1
        · rw [List.mem_singleton.1 h1]
          exact hd
      · rw [if_neg hd]
        intro c hc
        rcases List.mem_append.1 hc with h1 | h1
        · exact hacc c h1
        · exact splitLargeCluster_size_le sqrt d _ _ hmax (not_le.1 hd) c h1
  intro c hc
  exact main _ ([], _) (by simp) c hc

/-- Witness for C2: in the concrete five-file run, the first returned
cluster respects the effective bound `maxClusterSize = 2`. -/
theorem C2_witness :
    (({ id := 1, files := [exF4, exF3], centroid := some [-3/2] } :
      Cluster ℝ)).files.length ≤ exOpts.maxClusterSize.getD 50 :=
  C2_size_bound Real.sqrt exOracle exFiles exOpts
    (by norm_num [exOpts, exFiles]) (by norm_num [exOpts]) _
    (by rw [exClusterFiles]; exact List.mem_cons_self _ _)

section MemberAccounting

variable {K : Type} [LinearOrderedField K]

/-- Combined members of a sub-cluster state, as a multiset. -/
def stateMembers {α : Type} (st : List (List α)) : Multiset α :=
  (st.map (fun l => Multiset.ofList l)).sum

theorem stateMembers_nil {α : Type} : stateMembers ([] : List (List α)) = 0 := rfl

theorem stateMembers_cons {α : Type} (l : List α) (st : List (List α)) :
    stateMembers (l :: st) = (l : Multiset α) + stateMembers st := by
  simp [stateMembers]

/-- Overwriting one list entry replaces its contribution but never adds
more than the new entry. -/
theorem listSet_coe_le {α : Type} (l : List α) (k : ℕ) (a : α) :
    ((l.set k a : List α) : Multiset α) ≤ (l : Multiset α) + {a} := by
  induction l generalizing k with
  | nil => simp
  | cons h t ih =>
    cases k with
    | zero =>
      simp only [List.set_cons_zero]
      rw [show ((a :: t : List α) : Multiset α) = a ::ₘ (t : Multiset α) from rfl]
      rw [show ((h :: t : List α) : Multiset α) = h ::ₘ (t : Multiset α) from rfl]
      rw [add_comm, Multiset.singleton_add]
      exact Multiset.cons_le_cons a (Multiset.le_cons_self _ _)
    | succ k =>
      simp only [List.set_cons_succ]
      rw [show ((h :: t.set k a : List α) : Multiset α) = h ::ₘ (t.set k a : Multiset α)
        from rfl]
      rw [show ((h :: t : List α) : Multiset α) = h ::ₘ (t : Multiset α) from rfl]
      rw [show h ::ₘ (t : Multiset α) + ({a} : Multiset α) =
        h ::ₘ ((t : Multiset α) + {a}) by rw [Multiset.cons_add]]
      exact Multiset.cons_le_cons h (ih k)

/-- Exchanging entry `i` (in range) for `x` exchanges exactly their
contributions. -/
theorem stateMembers_set_eq {α : Type} (st : List (List α)) (i : ℕ) (x : List α)
    (hi : i < st.length) :
    stateMembers (st.set i x) + ((st.getD i [] : List α) : Multiset α) =
      stateMembers st + (x : Multiset α) := by
  induction st generalizing i with
  | nil => simp at hi
  | cons h t ih =>
    cases i with
    | zero =>
      simp only [List.set_cons_zero, List.getD_cons_zero, stateMembers_cons]
      abel
    | succ i =>
      simp only [List.set_cons_succ, List.getD_cons_succ, stateMembers_cons]
      have h2 := ih i (by simpa using hi)
      calc (h : Multiset α) + stateMembers (t.set i x) + ↑(t.getD i []) =
          (h : Multiset α) + (stateMembers (t.set i x) + ↑(t.getD i [])) := by abel
        _ = (h : Multiset α) + (stateMembers t + ↑x) := by rw [h2]
        _ = (h : Multiset α) + stateMembers t + ↑x := by abel

/-- One assignment step adds at most the new file to the state members:
a push adds it, a swap exchanges it for the displaced member, a failed
swap drops it. -/
theorem assignFile_members_le (sqrt : K → K) (maxClusterSize numSubClusters : ℕ)
    (st : List (List (FileItem K))) (file : FileItem K) :
    stateMembers (assignFile sqrt maxClusterSize numSubClusters st file) ≤
      stateMembers st + {file} := by
  simp only [assignFile]
  by_cases hp : (st.getD (bestOpenSubCluster sqrt maxClusterSize numSubClusters st file).1
      []).length < maxClusterSize
  · rw [if_pos hp]
    set i := (bestOpenSubCluster sqrt maxClusterSize numSubClusters st file).1 with hidef
    by_cases hi : i < st.length
    · have hx : ((st.getD i [] ++ [file] : List (FileItem K)) : Multiset (FileItem K)) =
          (st.getD i [] : Multiset (FileItem K)) + {file} := by
        rw [← Multiset.coe_singleton, Multiset.coe_add]
      have h := stateMembers_set_eq st i (st.getD i [] ++ [file]) hi
      rw [hx] at h
      have h3 : stateMembers (st.set i (st.getD i [] ++ [file])) +
          (st.getD i [] : Multiset (FileItem K)) =
          (stateMembers st + {file}) + (st.getD i [] : Multiset (FileItem K)) := by
        rw [h]; abel
      exact le_of_eq (add_right_cancel h3)
    · rw [List.set_eq_of_length_le (not_lt.1 hi)]
      exact le_add_of_nonneg_right (Multiset.zero_le _)
  · rw [if_neg hp]
    by_cases hidx : findLeastSimilarFile sqrt file
        (st.getD (bestFitSubCluster sqrt numSubClusters st file) []) = -1
    · rw [if_pos hidx]
      exact le_add_of_nonneg_right (Multiset.zero_le _)
    · rw [if_neg hidx]
      set j := bestFitSubCluster sqrt numSubClusters st file with hjdef
      set old := st.getD j [] with holddef
      set neu := old.set (findLeastSimilarFile sqrt file old).toNat file with hneudef
      by_cases hj : j < st.length
      · have h := stateMembers_set_eq st j neu hj
        rw [← holddef] at h
        have hle : (neu : Multiset (FileItem K)) ≤ (old : Multiset (FileItem K)) + {file} :=
          listSet_coe_le old _ file
        have h3 : stateMembers (st.set j neu) + (old : Multiset (FileItem K)) ≤
            (stateMembers st + {file}) + (old : Multiset (FileItem K)) := by
          rw [h]
          calc stateMembers st + (neu : Multiset (FileItem K)) ≤
              stateMembers st + ((old : Multiset (FileItem K)) + {file}) :=
                add_le_add_left hle _
            _ = (stateMembers st + {file}) + (old : Multiset (FileItem K)) := by abel
        exact le_of_add_le_add_right h3
      · rw [List.set_eq_of_length_le (not_lt.1 hj)]
        exact le_add_of_nonneg_right (Multiset.zero_le _)

/-- The assignment fold adds at most the pool files to the state. -/
theorem foldl_assign_members_le (sqrt : K → K) (maxClusterSize numSubClusters : ℕ)
    (pool : List (ℕ × FileItem K)) (st : List (List (FileItem K))) :
    stateMembers (pool.foldl
        (fun st p => assignFile sqrt maxClusterSize numSubClusters st p.2) st) ≤
      stateMembers st + ((pool.map Prod.snd : List (FileItem K)) : Multiset (FileItem K)) := by
  induction pool generalizing st with
  | nil => simp
  | cons p t ih =>
    simp only [List.foldl_cons, List.map_cons]
    calc stateMembers (t.foldl (fun st p => assignFile sqrt maxClusterSize numSubClusters st
          p.2) (assignFile sqrt maxClusterSize numSubClusters st p.2)) ≤
        stateMembers (assignFile sqrt maxClusterSize numSubClusters st p.2) +
          ((t.map Prod.snd : List (FileItem K)) : Multiset (FileItem K)) := ih _
      _ ≤ (stateMembers st + {p.2}) +
          ((t.map Prod.snd : List (FileItem K)) : Multiset (FileItem K)) :=
            add_le_add_right (assignFile_members_le sqrt maxClusterSize numSubClusters st p.2) _
      _ = stateMembers st +
          ((p.2 :: t.map Prod.snd : List (FileItem K)) : Multiset (FileItem K)) := by
            rw [← Multiset.cons_coe]
            rw [show ((p.2 ::ₘ ↑(t.map Prod.snd)) : Multiset (FileItem K)) =
              {p.2} + ↑(t.map Prod.snd) by rw [Multiset.singleton_add]]
            abel

end MemberAccounting

section SplitAccounting

variable {K : Type} [LinearOrderedField K]

/-- The members of the initial seed state are exactly the seed files. -/
theorem stateMembers_seeds {α β : Type} (f : β → α) (seeds : List β) :
    stateMembers (seeds.map (fun t => [f t])) = ((seeds.map f : List α) : Multiset α) := by
  induction seeds with
  | nil => rfl
  | cons t ts ih =>
    simp only [List.map_cons, stateMembers_cons, ih, ← Multiset.cons_coe]
    rw [show ((f t ::ₘ ↑(ts.map f)) : Multiset α) = {f t} + ↑(ts.map f) by
      rw [Multiset.singleton_add]]
    rfl

/-- Partition of the input files into the seed files and the pool files:
the sorted triple list is a permutation of the enumerated input (carrying
distances), its index components are distinct, so filtering out the seed
indices from the enumeration yields exactly the non-seed triples. -/
theorem seeds_pool_partition (files : List (FileItem K))
    (s : List (ℕ × FileItem K × Option K)) (k : ℕ)
    (hperm : List.Perm (s.map (fun t => (t.1, t.2.1))) files.enum) :
    ((((s.take k).map (fun t => t.2.1)) : List (FileItem K)) : Multiset (FileItem K)) +
      (((files.enum.filter (fun (p : ℕ × FileItem K) =>
        decide (p.1 ∉ (s.take k).map (fun t => t.1)))).map Prod.snd :
          List (FileItem K)) : Multiset (FileItem K)) =
      (files : Multiset (FileItem K)) := by
  classical
  set strip : (ℕ × FileItem K × Option K) → ℕ × FileItem K := fun t => (t.1, t.2.1)
    with hstrip
  set A := s.take k with hA
  set B := s.drop k with hB
  have hsplit : A ++ B = s := List.take_append_drop k s
  have hnodup : ((s.map strip).map Prod.fst).Nodup := by
    rw [(hperm.map Prod.fst).nodup_iff]
    exact List.nodup_enum_map_fst files
  have hnodup2 : (s.map (fun t => t.1)).Nodup := by
    rw [show (s.map (fun t => t.1)) = (s.map strip).map Prod.fst by
      rw [List.map_map]; rfl]
    exact hnodup
  have hdisj : (A.map (fun t => t.1)).Disjoint (B.map (fun t => t.1)) := by
    have : ((A ++ B).map (fun t => t.1)).Nodup := by rw [hsplit]; exact hnodup2
    rw [List.map_append] at this
    exact (List.nodup_append.1 this).2.2
  -- the pool as a multiset is the stripped non-seed part
  have hpool : ((files.enum.filter (fun (p : ℕ × FileItem K) =>
      decide (p.1 ∉ A.map (fun t => t.1)))) : Multiset (ℕ × FileItem K)) =
      ((B.map strip : List (ℕ × FileItem K)) : Multiset (ℕ × FileItem K)) := by
    have hcoe : ((files.enum : List (ℕ × FileItem K)) : Multiset (ℕ × FileItem K)) =
        ((s.map strip : List (ℕ × FileItem K)) : Multiset (ℕ × FileItem K)) :=
      Multiset.coe_eq_coe.2 hperm.symm
    have h1 : ((files.enum.filter (fun (p : ℕ × FileItem K) =>
        decide (p.1 ∉ A.map (fun t => t.1)))) : Multiset (ℕ × FileItem K)) =
        Multiset.filter (fun (p : ℕ × FileItem K) => p.1 ∉ A.map (fun t => t.1))
          ((files.enum : List (ℕ × FileItem K)) : Multiset (ℕ × FileItem K)) := by
      rw [Multiset.filter_coe]
    rw [h1, hcoe]
    rw [show (s.map strip) = A.map strip ++ B.map strip by
      rw [← List.map_append, hsplit]]
    rw [← Multiset.coe_add, Multiset.filter_add]
    have hzero : Multiset.filter (fun (p : ℕ × FileItem K) => p.1 ∉ A.map (fun t => t.1))
        ((A.map strip : List (ℕ × FileItem K)) : Multiset (ℕ × FileItem K)) = 0 := by
      rw [Multiset.filter_eq_nil]
      intro a ha
      obtain ⟨t, ht, rfl⟩ := List.mem_map.1 (Multiset.mem_coe.1 ha)
      simp only [not_not]
      exact List.mem_map.2 ⟨t, ht, rfl⟩
    have hall : Multiset.filter (fun (p : ℕ × FileItem K) => p.1 ∉ A.map (fun t => t.1))
        ((B.map strip : List (ℕ × FileItem K)) : Multiset (ℕ × FileItem K)) =
        ((B.map strip : List (ℕ × FileItem K)) : Multiset (ℕ × FileItem K)) := by
      rw [Multiset.filter_eq_self]
      intro a ha
      obtain ⟨t, ht, rfl⟩ := List.mem_map.1 (Multiset.mem_coe.1 ha)
      intro hcon
      obtain ⟨u, hu, hequ⟩ := List.mem_map.1 hcon
      exact hdisj (List.mem_map.2 ⟨u, hu, hequ⟩) (List.mem_map.2 ⟨t, ht, rfl⟩)
    rw [hzero, hall, zero_add]
  have hsnd : (((files.enum.filter (fun (p : ℕ × FileItem K) =>
      decide (p.1 ∉ A.map (fun t => t.1)))).map Prod.snd : List (FileItem K)) :
        Multiset (FileItem K)) =
      ((B.map (fun t => t.2.1) : List (FileItem K)) : Multiset (FileItem K)) := by
    rw [← Multiset.map_coe, hpool, Multiset.map_coe, List.map_map]
    rfl
  rw [hsnd]
  rw [Multiset.coe_add]
  rw [show (A.map (fun t => t.2.1) ++ B.map (fun t => t.2.1)) =
    (A ++ B).map (fun t => t.2.1) by rw [List.map_append]]
  rw [hsplit]
  have : (s.map (fun t => t.2.1)) = (s.map strip).map Prod.snd := by
    rw [List.map_map]; rfl
  rw [this]
  rw [Multiset.coe_eq_coe.2 (hperm.map Prod.snd)]
  rw [List.enum_map_snd]

end SplitAccounting

section SplitMembers

variable {K : Type} [LinearOrderedField K]

theorem stateMembers_append {α : Type} (l1 l2 : List (List α)) :
    stateMembers (l1 ++ l2) = stateMembers l1 + stateMembers l2 := by
  simp [stateMembers]

theorem stateMembers_perm {α : Type} {l1 l2 : List (List α)}
    (h : List.Perm l1 l2) : stateMembers l1 = stateMembers l2 := by
  unfold stateMembers
  exact (h.map Multiset.ofList).sum_eq

/-- Dropping the empty sub-clusters only removes (empty) contributions. -/
theorem stateMembers_filter_le {α : Type} (q : List α → Bool) (st : List (List α)) :
    stateMembers (st.filter q) ≤ stateMembers st := by
  have hperm := List.filter_append_perm q st
  rw [← stateMembers_perm hperm, stateMembers_append]
  exact le_add_of_nonneg_right (Multiset.zero_le _)

/-- The emitted clusters of `splitLargeCluster` carry exactly the member
lists of the (filtered) final state. -/
theorem clusterMembers_emit (sid : ℤ) (st : List (List (FileItem K))) : ∀ (n : ℕ),
    ((clusterMembers ((st.enumFrom n).map (fun p =>
      ({ id := sid + (p.1 : ℤ), files := p.2,
         centroid := some (calculateCentroid (p.2.map (fun f => f.embedding))) } :
        Cluster K))) : List (FileItem K)) : Multiset (FileItem K)) = stateMembers st := by
  induction st with
  | nil => intro n; rfl
  | cons l t ih =>
    intro n
    simp only [List.enumFrom, List.map_cons, clusterMembers, List.flatMap_cons]
    rw [← Multiset.coe_add, stateMembers_cons]
    congr 1
    exact ih (n + 1)

/-- The members of the sub-clusters emitted by `splitLargeCluster` form a
sub-multiset of the original cluster members (the swap branch can drop
members, so this need not be an equality). -/
theorem splitLargeCluster_members_le (sqrt : K → K) (c : Cluster K)
    (maxClusterSize : ℕ) (startClusterId : ℤ) :
    ((clusterMembers (splitLargeCluster sqrt c maxClusterSize startClusterId) :
      List (FileItem K)) : Multiset (FileItem K)) ≤ (c.files : Multiset (FileItem K)) := by
  simp only [splitLargeCluster]
  by_cases h1 : c.files.length ≤ maxClusterSize
  · rw [if_pos h1]
    simp [clusterMembers]
  · rw [if_neg h1]
    by_cases h2 : (c.files.length + maxClusterSize - 1) / maxClusterSize = 1
    · rw [if_pos h2]
      simp [clusterMembers]
    · rw [if_neg h2]
      simp only [List.enum]
      rw [clusterMembers_emit]
      refine le_trans (stateMembers_filter_le _ _) ?_
      refine le_trans (foldl_assign_members_le sqrt maxClusterSize _ _ _) ?_
      rw [stateMembers_seeds (fun (t : ℕ × FileItem K × Option K) => t.2.1)]
      have hps := List.perm_insertionSort distLe
        (c.files.enum.map (fun p => (p.1, p.2, calculateCosineDistance sqrt p.2.embedding
          (c.centroid.getD (calculateCentroid (c.files.map (fun f => f.embedding)))))))
      have hstripped : ((c.files.enum.map (fun p => (p.1, p.2,
          calculateCosineDistance sqrt p.2.embedding
            (c.centroid.getD (calculateCentroid (c.files.map (fun f => f.embedding))))))).map
          (fun t => (t.1, t.2.1))) = c.files.enum := by
        rw [List.map_map]
        exact List.map_id _
      have hperm : List.Perm ((List.insertionSort distLe
          (c.files.enum.map (fun p => (p.1, p.2, calculateCosineDistance sqrt p.2.embedding
            (c.centroid.getD (calculateCentroid (c.files.map (fun f => f.embedding)))))))).map
          (fun t => (t.1, t.2.1))) c.files.enum := by
        refine (hps.map (fun t => (t.1, t.2.1))).trans ?_
        rw [hstripped]
      have hpart := seeds_pool_partition (K := K) c.files
        (List.insertionSort distLe
          (c.files.enum.map (fun p => (p.1, p.2, calculateCosineDistance sqrt p.2.embedding
            (c.centroid.getD (calculateCentroid (c.files.map (fun f => f.embedding))))))))
        ((c.files.length + maxClusterSize - 1) / maxClusterSize) hperm
      simp only [List.enum] at hpart
      rw [hpart]

end SplitMembers

section GroupAccounting

variable {K : Type} [LinearOrderedField K]

/-- Combined member lists of a grouping accumulator, as a multiset. -/
def pairsValues (acc : List (ℤ × List (FileItem K))) : Multiset (FileItem K) :=
  (acc.map (fun p => Multiset.ofList p.2)).sum

/-- Unfolding lemma for `pairsValues` on a cons cell. -/
theorem pairsValues_cons (p : ℤ × List (FileItem K)) (t : List (ℤ × List (FileItem K))) :
    pairsValues (p :: t) = Multiset.ofList p.2 + pairsValues t := by
  simp [pairsValues]

/-- `groupInsert` keeps the keys distinct. -/
theorem groupInsert_nodup_keys (acc : List (ℤ × List (FileItem K))) (lab : ℤ)
    (f : FileItem K) (h : (acc.map Prod.fst).Nodup) :
    ((groupInsert acc lab f).map Prod.fst).Nodup := by
  unfold groupInsert
  split
  · rw [List.map_map]
    have hcong : acc.map (Prod.fst ∘ fun p => if p.1 = lab then (p.1, p.2 ++ [f]) else p) =
        acc.map Prod.fst := by
      apply List.map_congr_left
      intro p _
      by_cases hp : p.1 = lab <;> simp [hp]
    rw [hcong]
    exact h
  · rename_i hany
    rw [List.map_append]
    have hnot : lab ∉ acc.map Prod.fst := by
      intro hcon
      obtain ⟨p, hp, hep⟩ := List.mem_map.1 hcon
      have : acc.any (fun p => decide (p.1 = lab)) = true :=
        List.any_eq_true.2 ⟨p, hp, by simp [hep]⟩
      exact hany this
    refine List.Nodup.append h (List.nodup_singleton lab) ?_
    intro a ha hb
    rw [List.mem_singleton.1 hb] at ha
    exact hnot ha

/-- Appending a file to the (unique) group of its label adds exactly that
file to the combined members. -/
theorem pairsValues_update (lab : ℤ) (f : FileItem K) :
    ∀ (acc : List (ℤ × List (FileItem K))), (acc.map Prod.fst).Nodup →
    acc.any (fun p => decide (p.1 = lab)) = true →
    pairsValues (acc.map (fun p => if p.1 = lab then (p.1, p.2 ++ [f]) else p)) =
      pairsValues acc + {f} := by
  intro acc
  induction acc with
  | nil => intro _ hmem; simp at hmem
  | cons p t ih =>
    intro hnd hmem
    by_cases hp : p.1 = lab
    · have htail : t.map (fun q => if q.1 = lab then (q.1, q.2 ++ [f]) else q) = t := by
        refine (List.map_congr_left ?_).trans (List.map_id t)
        intro q hq
        have : q.1 ≠ lab := by
          intro hcon
          have h1 : p.1 ∈ t.map Prod.fst := by
            rw [hp, ← hcon]
            exact List.mem_map.2 ⟨q, hq, rfl⟩
          exact (List.nodup_cons.1 hnd).1 h1
        simp [this]
      simp only [List.map_cons, if_pos hp, htail]
      rw [pairsValues_cons, pairsValues_cons]
      rw [show Multiset.ofList (p.2 ++ [f]) = Multiset.ofList p.2 + {f} by
        rw [← Multiset.coe_singleton, Multiset.coe_add]]
      abel
    · have hmem2 : t.any (fun q => decide (q.1 = lab)) = true := by
        rcases List.any_eq_true.1 hmem with ⟨q, hq, hqe⟩
        rcases List.mem_cons.1 hq with rfl | hq2
        · simp at hqe; exact absurd hqe hp
        · exact List.any_eq_true.2 ⟨q, hq2, hqe⟩
      simp only [List.map_cons, if_neg hp]
      rw [pairsValues_cons, pairsValues_cons,
        ih (List.nodup_cons.1 hnd).2 hmem2]
      abel

/-- `groupInsert` adds exactly the inserted file to the combined members
(provided the keys are distinct). -/
theorem pairsValues_groupInsert (acc : List (ℤ × List (FileItem K))) (lab : ℤ)
    (f : FileItem K) (h : (acc.map Prod.fst).Nodup) :
    pairsValues (groupInsert acc lab f) = pairsValues acc + {f} := by
  unfold groupInsert
  split
  · exact pairsValues_update lab f acc h (by assumption)
  · simp only [pairsValues, List.map_append, List.sum_append]
    simp [Multiset.coe_singleton]

/-- The grouping fold collects exactly the labelled files. -/
theorem groupFold_values (pairs : List (ℤ × FileItem K)) :
    ∀ (acc : List (ℤ × List (FileItem K))), (acc.map Prod.fst).Nodup →
    ((pairs.foldl (fun acc p => groupInsert acc p.1 p.2) acc).map Prod.fst).Nodup ∧
    pairsValues (pairs.foldl (fun acc p => groupInsert acc p.1 p.2) acc) =
      pairsValues acc + Multiset.ofList (pairs.map Prod.snd) := by
  induction pairs with
  | nil => intro acc h; exact ⟨h, by simp [pairsValues]⟩
  | cons p t ih =>
    intro acc h
    simp only [List.foldl_cons]
    obtain ⟨hnd, hval⟩ := ih (groupInsert acc p.1 p.2) (groupInsert_nodup_keys acc p.1 p.2 h)
    refine ⟨hnd, ?_⟩
    rw [hval, pairsValues_groupInsert acc p.1 p.2 h]
    simp only [List.map_cons]
    rw [show Multiset.ofList (p.2 :: t.map Prod.snd) =
      {p.2} + Multiset.ofList (t.map Prod.snd) by
        rw [← Multiset.cons_coe, Multiset.singleton_add]]
    abel

/-- The grouped member lists are exactly the files paired with a label. -/
theorem groupByLabels_values (pairs : List (ℤ × FileItem K)) :
    pairsValues (groupByLabels pairs) = Multiset.ofList (pairs.map Prod.snd) := by
  have := (groupFold_values pairs [] (by simp)).2
  simpa [groupByLabels, pairsValues] using this

/-- The second components of a zip form a sublist of the second list. -/
theorem map_snd_zip_sublist {α β : Type} (lz : List α) (fs : List β) :
    List.Sublist ((lz.zip fs).map Prod.snd) fs := by
  induction lz generalizing fs with
  | nil => simp
  | cons a t ih =>
    cases fs with
    | nil => simp
    | cons b fs => exact List.Sublist.cons₂ b (ih fs)

end GroupAccounting

section ClusterFilesAccounting

variable {K : Type} [LinearOrderedField K]

/-- The members of a cluster list, counted with multiplicity, are the sum
of the member multisets. -/
theorem clusterMembers_coe_sum (cl : List (Cluster K)) :
    ((clusterMembers cl : List (FileItem K)) : Multiset (FileItem K)) =
      (cl.map (fun c => Multiset.ofList c.files)).sum := by
  induction cl with
  | nil => rfl
  | cons c t ih =>
    simp only [clusterMembers, List.flatMap_cons, List.map_cons, List.sum_cons]
    rw [← Multiset.coe_add]
    rw [show ((t.flatMap (fun c => c.files) : List (FileItem K)) : Multiset (FileItem K)) =
      (t.map (fun c => Multiset.ofList c.files)).sum from ih]

/-- Members of an appended cluster list. -/
theorem clusterMembers_append (a b : List (Cluster K)) :
    clusterMembers (a ++ b) = clusterMembers a ++ clusterMembers b := by
  simp [clusterMembers]

/-- Each step of the split fold of `clusterFiles` adds at most the files of
the processed cluster to the accumulated members. -/
theorem clusterFold_members_le (sqrt : K → K) (maxClusterSize : ℕ) :
    ∀ (cl : List (Cluster K)) (acc : List (Cluster K) × ℤ),
    ((clusterMembers (cl.foldl
        (fun (acc : List (Cluster K) × ℤ) c =>
          if c.files.length ≤ maxClusterSize then (acc.1 ++ [c], acc.2)
          else
            let subClusters := splitLargeCluster sqrt c maxClusterSize acc.2
            (acc.1 ++ subClusters, acc.2 + (subClusters.length : ℤ)))
        acc).1 : List (FileItem K)) : Multiset (FileItem K)) ≤
      ((clusterMembers acc.1 : List (FileItem K)) : Multiset (FileItem K)) +
        (cl.map (fun c => Multiset.ofList c.files)).sum := by
  intro cl
  induction cl with
  | nil => intro acc; simp
  | cons c t ih =>
    intro acc
    simp only [List.foldl_cons, List.map_cons, List.sum_cons]
    refine le_trans (ih _) ?_
    have hstep : ((clusterMembers (if c.files.length ≤ maxClusterSize then
          (acc.1 ++ [c], acc.2)
        else
          let subClusters := splitLargeCluster sqrt c maxClusterSize acc.2
          (acc.1 ++ subClusters, acc.2 + (subClusters.length : ℤ))).1 :
        List (FileItem K)) : Multiset (FileItem K)) ≤
        ((clusterMembers acc.1 : List (FileItem K)) : Multiset (FileItem K)) +
          Multiset.ofList c.files := by
      split
      · rw [clusterMembers_append, ← Multiset.coe_add]
        have : clusterMembers [c] = c.files := by simp [clusterMembers]
        rw [this]
      · simp only []
        rw [clusterMembers_append, ← Multiset.coe_add]
        exact add_le_add_left (splitLargeCluster_members_le sqrt c maxClusterSize acc.2) _
    calc ((clusterMembers (if c.files.length ≤ maxClusterSize then
            (acc.1 ++ [c], acc.2)
          else
            let subClusters := splitLargeCluster sqrt c maxClusterSize acc.2
            (acc.1 ++ subClusters, acc.2 + (subClusters.length : ℤ))).1 :
          List (FileItem K)) : Multiset (FileItem K)) +
          (t.map (fun c => Multiset.ofList c.files)).sum ≤
        (((clusterMembers acc.1 : List (FileItem K)) : Multiset (FileItem K)) +
          Multiset.ofList c.files) +
          (t.map (fun c => Multiset.ofList c.files)).sum :=
          add_le_add_right hstep _
      _ = ((clusterMembers acc.1 : List (FileItem K)) : Multiset (FileItem K)) +
          (Multiset.ofList c.files + (t.map (fun c => Multiset.ofList c.files)).sum) := by
          rw [add_assoc]

end ClusterFilesAccounting

/-- C1.  The spec asserts partition completeness: the union of the member
lists of the clusters returned by `clusterFiles` equals the input list
exactly, with no duplication and no loss, including when the swap branch of
`splitLargeCluster` runs.  This is refuted by `C1_counterexample`: the swap
branch overwrites the displaced member without reinserting it, so a file of
the input can be absent from every returned cluster.  The amended claim,
proved here, is the sound half: the members of the returned clusters form a
sub-multiset of the input — no file is duplicated and no file appears that
was not in the input, for every input, option record and HDBSCAN oracle. -/
theorem C1_members_submultiset {K : Type} [LinearOrderedField K] (sqrt : K → K)
    (hdbscanLabels : List (List K) → ℕ → ℕ → List ℤ)
    (files : List (FileItem K)) (options : ClusteringOptions K) :
    ((clusterMembers (clusterFiles sqrt hdbscanLabels files options) :
      List (FileItem K)) : Multiset (FileItem K)) ≤
      (files : Multiset (FileItem K)) := by
  rw [clusterFiles]
  simp only []
  split
  · simp [clusterMembers]
  · set minClusterSize := options.minClusterSize.getD 2 with hmin
    set minSamples := options.minSamples.getD (min minClusterSize 3) with hsamp
    set maxClusterSize := options.maxClusterSize.getD 50 with hmaxd
    set labels := hdbscanLabels (files.map (fun f => f.embedding)) minClusterSize minSamples
      with hlab
    set grouped := groupByLabels (labels.zip files) with hgrp
    set clusters := grouped.map
      (fun p =>
        ({ id := p.1, files := p.2,
           centroid := some (calculateCentroid (p.2.map (fun f => f.embedding))) } :
          Cluster K)) with hcls
    set nextClusterId := jsMaxInt (clusters.map (fun c => c.id)) + 1 with hnext
    have hsort : ((clusterMembers (List.insertionSort clusterOrderLe
          ((clusters.foldl
            (fun (acc : List (Cluster K) × ℤ) c =>
              if c.files.length ≤ maxClusterSize then (acc.1 ++ [c], acc.2)
              else
                let subClusters := splitLargeCluster sqrt c maxClusterSize acc.2
                (acc.1 ++ subClusters, acc.2 + (subClusters.length : ℤ)))
            ([], nextClusterId)).1) : List (Cluster K)) :
        List (FileItem K)) : Multiset (FileItem K)) =
        ((clusterMembers ((clusters.foldl
            (fun (acc : List (Cluster K) × ℤ) c =>
              if c.files.length ≤ maxClusterSize then (acc.1 ++ [c], acc.2)
              else
                let subClusters := splitLargeCluster sqrt c maxClusterSize acc.2
                (acc.1 ++ subClusters, acc.2 + (subClusters.length : ℤ)))
            ([], nextClusterId)).1 : List (Cluster K)) :
          List (FileItem K)) : Multiset (FileItem K)) := by
      rw [clusterMembers_coe_sum, clusterMembers_coe_sum]
      exact ((List.perm_insertionSort clusterOrderLe _).map
        (fun c => Multiset.ofList c.files)).sum_eq
    refine le_trans (le_of_eq hsort) ?_
    refine le_trans (clusterFold_members_le sqrt maxClusterSize clusters ([], nextClusterId)) ?_
    have hnil : ((clusterMembers ([] : List (Cluster K)) : List (FileItem K)) :
        Multiset (FileItem K)) = 0 := rfl
    rw [hnil, zero_add]
    have hclsum : ((clusters.map (fun c => Multiset.ofList c.files)).sum :
        Multiset (FileItem K)) = pairsValues grouped := by
      rw [hcls, List.map_map]
      rfl
    rw [hclsum, groupByLabels_values]
    rw [Multiset.coe_le]
    exact (map_snd_zip_sublist labels files).subperm
